import Mathlib

/-!
# Event rendering of `modules/events_view.go`

A shallow embedding of the event view of the `modules` package: the dispatcher
`EventsStream.View` and its six renderers, followed by the properties of the
routing and of the rendered text.

Conventions of the embedding.

* `fmt.Printf` on standard output is modelled by the text it writes; a renderer
  returns that text.
* A failed type assertion `x.(T)` and a nil pointer dereference are run-time
  panics; a renderer returns `Except Panic _`.  Every renderer evaluates all its
  narrowing steps before its single `Printf`, so a panic carries no output.
* Values owned by other packages (`core` styling, `fmt` verbs on arbitrary
  values, `time.Time.Format`, `(*http.Request).ParseForm`) are taken as the
  parameters `Env`.
* The order in which `range` visits a Go map is not fixed by the language; it
  is the parameter `MapOrder`.
* The HTTP request is reached through a pointer and is changed by rendering
  (`ParseForm`, `ReadAll`), so a renderer also returns the event as it is left.
-/

namespace EventsView

/-! ## Data model -/

/-- The contents of a Go `map[string][]string` (`http.Header`, `url.Values`). -/
abbrev Values := List (String × List String)

/-- The wall-clock reading of a `time.Time`. -/
structure Time where
  hour : Nat
  minute : Nat
  second : Nat
deriving DecidableEq

/-- Payload of `sys.log`: `session.LogMessage`. -/
structure LogMessage where
  Message : String
deriving DecidableEq

/-- Modelled from the spec: `network.AccessPoint` is declared outside this file;
the renderer reads its `Vendor` field and its `ESSID()`, `BSSID()` and `String()`
accessors. -/
structure AccessPoint where
  ESSID : String
  BSSID : String
  Vendor : String
  toStr : String
deriving DecidableEq

/-- Modelled from the spec: `network.Endpoint` is declared outside this file;
the renderer reads these fields and the `String()` accessor. -/
structure Endpoint where
  IpAddress : String
  HwAddress : String
  Vendor : String
  Alias : String
  Hostname : String
  toStr : String
deriving DecidableEq

/-- Payload of `syn.scan`: `SynScanEvent`. -/
structure SynScanEvent where
  Address : String
  Port : Int
deriving DecidableEq

/-- A `*url.URL` that is not nil, seen through its `String()` method. -/
structure URL where
  text : String
deriving DecidableEq

/-- An `io.ReadCloser` body: the bytes not yet read, and whether the read that
follows them reports an error instead of end of file. -/
structure Body where
  pending : String
  failing : Bool
deriving DecidableEq

/-- The fields of `http.Request` the sniffer renderer touches.  `URL` and `Body`
may be nil. -/
structure Request where
  Method : String
  URL : Option URL
  Header : Values
  Form : Values
  Body : Option Body
deriving DecidableEq

/-- A Go value of a type this file does not know, named by a description. -/
structure GoValue where
  desc : String
deriving DecidableEq

/-- The `Data interface{}` field of a `SnifferEvent`: nil, a `*http.Request`
(itself possibly a nil pointer), or any other value. -/
inductive Inner where
  | absent
  | request (req : Option Request)
  | other (v : GoValue)
deriving DecidableEq

/-- Payload of `net.sniff.*`: `SnifferEvent`. -/
structure SnifferEvent where
  Message : String
  Data : Inner
deriving DecidableEq

/-- The `Data interface{}` field of a `session.Event`.  The pointer payloads
`*network.AccessPoint` and `*network.Endpoint` may be nil pointers. -/
inductive Payload where
  | absent
  | logMessage (m : LogMessage)
  | accessPoint (ap : Option AccessPoint)
  | endpoint (t : Option Endpoint)
  | sniffer (se : SnifferEvent)
  | synScan (se : SynScanEvent)
  | other (v : GoValue)
deriving DecidableEq

/-- Modelled from the spec: `session.Event` is declared outside this file; its
`Label()` method is the derived display string `Label` of the spec's data
model. -/
structure Event where
  Tag : String
  Time : Time
  Data : Payload
  Label : String
deriving DecidableEq

/-- What the renderers use from other packages. -/
structure Env where
  /-- The styling function `core.Green`. -/
  Green : String → String
  /-- The styling function `core.Bold`. -/
  Bold : String → String
  /-- The styling function `core.Red`. -/
  Red : String → String
  /-- The styling function `core.Yellow`. -/
  Yellow : String → String
  /-- The method `time.Time.Format`, applied to a layout. -/
  Format : Time → String → String
  /-- The verb `%s` of `fmt` on the payload of an event. -/
  SprintData : Payload → String
  /-- The verb `%s` of `fmt` on the inner data of a sniffer event. -/
  SprintInner : Inner → String
  /-- The verb `%v` of `fmt` on a whole event. -/
  SprintEvent : Event → String
  /-- The method `(*http.Request).ParseForm`: the error it returns (`none` for
  nil) and the request as it leaves it. -/
  ParseForm : Request → Option String × Request

/-- The order in which a `range` loop visits the entries of a map: one choice for
the loop over `req.Header`, one for the loop over `req.Form`. -/
structure MapOrder where
  header : Values → Values
  form : Values → Values

/-- A map order visits every entry exactly once. -/
def MapOrder.Lawful (ord : MapOrder) : Prop :=
  (∀ m, (ord.header m).Perm m) ∧ (∀ m, (ord.form m).Perm m)

/-- A run-time panic. -/
inductive Panic where
  | typeAssertion
  | nilDereference
deriving DecidableEq

/-- What a renderer leaves behind when it returns: the text it printed and the
event with the request as rendering left it. -/
structure Rendered where
  text : String
  event : Event
deriving DecidableEq

/-- An observable step of `View`. -/
inductive Effect where
  | print (text : String)
  | refresh
deriving DecidableEq

/-! ## Library functions -/

/-- The function `strings.HasPrefix`. -/
def HasPrefix (s pre : String) : Bool :=
  pre.data.isPrefixOf s.data

/-- The function `strings.Join`. -/
def Join (values : List String) (sep : String) : String :=
  sep.intercalate values

/-- The function `ioutil.ReadAll` on a body: the bytes read, whether the read
ended in an error, and the drained body. -/
def ReadAll (b : Body) : String × Bool × Body :=
  (b.pending, b.failing, { b with pending := "" })

/-! ## The renderers -/

/-- The layout constant of the leading time column. -/
def eventTimeFormat : String := "15:04:05"

/-- The log renderer. -/
def viewLogEvent (env : Env) (e : Event) : Except Panic Rendered :=
  match e.Data with
  | .logMessage m =>
    .ok ⟨"[" ++ env.Format e.Time eventTimeFormat ++ "] [" ++ env.Green e.Tag ++ "] ["
          ++ e.Label ++ "] " ++ m.Message ++ "\n", e⟩
  | _ => .error .typeAssertion

/-- The access-point renderer. -/
def viewApEvent (env : Env) (e : Event) : Except Panic Rendered :=
  match e.Data with
  | .accessPoint (some ap) =>
    let vend := if ap.Vendor ≠ "" then " (" ++ ap.Vendor ++ ")" else ""
    if e.Tag = "wifi.ap.new" then
      .ok ⟨"[" ++ env.Format e.Time eventTimeFormat ++ "] [" ++ env.Green e.Tag
            ++ "] WiFi access point " ++ env.Bold ap.ESSID ++ " detected as "
            ++ env.Green ap.BSSID ++ vend ++ ".\n", e⟩
    else if e.Tag = "wifi.ap.lost" then
      .ok ⟨"[" ++ env.Format e.Time eventTimeFormat ++ "] [" ++ env.Green e.Tag
            ++ "] WiFi access point " ++ env.Red ap.ESSID ++ " (" ++ ap.BSSID ++ ") lost.\n", e⟩
    else
      .ok ⟨"[" ++ env.Format e.Time eventTimeFormat ++ "] [" ++ env.Green e.Tag ++ "] "
            ++ ap.toStr ++ "\n", e⟩
  | .accessPoint none => .error .nilDereference
  | _ => .error .typeAssertion

/-- The endpoint renderer. -/
def viewEndpointEvent (env : Env) (e : Event) : Except Panic Rendered :=
  match e.Data with
  | .endpoint (some t) =>
    let vend := if t.Vendor ≠ "" then " (" ++ t.Vendor ++ ")" else ""
    let name :=
      if t.Alias ≠ "" then " (" ++ t.Alias ++ ")"
      else if t.Hostname ≠ "" then " (" ++ t.Hostname ++ ")"
      else ""
    if e.Tag = "endpoint.new" then
      .ok ⟨"[" ++ env.Format e.Time eventTimeFormat ++ "] [" ++ env.Green e.Tag
            ++ "] Endpoint " ++ env.Bold t.IpAddress ++ " detected as "
            ++ env.Green t.HwAddress ++ vend ++ ".\n", e⟩
    else if e.Tag = "endpoint.lost" then
      .ok ⟨"[" ++ env.Format e.Time eventTimeFormat ++ "] [" ++ env.Green e.Tag
            ++ "] Endpoint " ++ env.Red t.IpAddress ++ name ++ " lost.\n", e⟩
    else
      .ok ⟨"[" ++ env.Format e.Time eventTimeFormat ++ "] [" ++ env.Green e.Tag ++ "] "
            ++ t.toStr ++ "\n", e⟩
  | .endpoint none => .error .nilDereference
  | _ => .error .typeAssertion

/-- The module renderer. -/
def viewModuleEvent (env : Env) (e : Event) : Except Panic Rendered :=
  .ok ⟨"[" ++ env.Format e.Time eventTimeFormat ++ "] [" ++ env.Green e.Tag ++ "] "
        ++ env.SprintData e.Data ++ "\n", e⟩

/-- One line of the header dump of the sniffer renderer. -/
def headerLine (env : Env) (kv : String × List String) : String :=
  "    " ++ env.Green kv.1 ++ " => " ++ Join kv.2 ", " ++ "\n"

/-- One line of the form dump of the sniffer renderer. -/
def formLine (env : Env) (kv : String × List String) : String :=
  "    " ++ env.Green kv.1 ++ " => " ++ env.Bold (Join kv.2 ", ") ++ "\n"

/-- The dump of a request whose method is not `GET` (the body of the inner `if`
of the sniffer renderer): the text of `misc` and the request as it is left. -/
def httpDump (env : Env) (ord : MapOrder) (req : Request) : Except Panic (String × Request) :=
  match req.URL with
  | none => .error .nilDereference
  | some u =>
    let misc := "" ++ "\n\n"
    let misc := misc ++ ("  Method: " ++ env.Yellow req.Method ++ "\n")
    let misc := misc ++ ("  URL: " ++ env.Yellow u.text ++ "\n")
    let misc := misc ++ "  Headers:\n"
    let misc := (ord.header req.Header).foldl (fun acc kv => acc ++ headerLine env kv) misc
    match env.ParseForm req with
    | (none, req1) =>
      let misc := misc ++ "  \n  Form:\n\n"
      let misc := (ord.form req1.Form).foldl (fun acc kv => acc ++ formLine env kv) misc
      .ok (misc, req1)
    | (some _, req1) =>
      match req1.Body with
      | some body =>
        let (b, _, body1) := ReadAll body
        .ok (misc ++ ("  \n  " ++ env.Bold "Body" ++ ":\n\n    " ++ b ++ "\n"),
             { req1 with Body := some body1 })
      | none => .ok (misc, req1)

/-- The variable `misc` of the sniffer renderer when the final `Printf` is
reached, with the sniffer event as it is left. -/
def snifferMisc (env : Env) (ord : MapOrder) (tag : String) (se : SnifferEvent) :
    Except Panic (String × SnifferEvent) :=
  if tag = "net.sniff.leak.http" then
    match se.Data with
    | .request (some req) =>
      if req.Method ≠ "GET" then
        match httpDump env ord req with
        | .ok (misc, req1) => .ok (misc, { se with Data := .request (some req1) })
        | .error p => .error p
      else .ok ("", se)
    | .request none => .error .nilDereference
    | _ => .error .typeAssertion
  else if se.Data ≠ .absent then
    .ok (env.SprintInner se.Data, se)
  else .ok ("", se)

/-- The sniffer renderer. -/
def viewSnifferEvent (env : Env) (ord : MapOrder) (e : Event) : Except Panic Rendered :=
  match e.Data with
  | .sniffer se =>
    match snifferMisc env ord e.Tag se with
    | .ok (misc, se1) =>
      .ok ⟨"[" ++ env.Format e.Time eventTimeFormat ++ "] [" ++ env.Green e.Tag ++ "] "
            ++ se.Message ++ " " ++ misc ++ "\n", { e with Data := .sniffer se1 }⟩
    | .error p => .error p
  | _ => .error .typeAssertion

/-- The port-scan renderer. -/
def viewSynScanEvent (env : Env) (e : Event) : Except Panic Rendered :=
  match e.Data with
  | .synScan se =>
    .ok ⟨"[" ++ env.Format e.Time eventTimeFormat ++ "] [" ++ env.Green e.Tag
          ++ "] Found open port " ++ toString se.Port ++ " for " ++ env.Bold se.Address ++ "\n", e⟩
  | _ => .error .typeAssertion

/-- The rendering part of `View`: everything before `if refresh`. -/
def viewRender (env : Env) (ord : MapOrder) (e : Event) : Except Panic Rendered :=
  if e.Tag = "sys.log" then viewLogEvent env e
  else if HasPrefix e.Tag "endpoint." then viewEndpointEvent env e
  else if HasPrefix e.Tag "wifi.ap." then viewApEvent env e
  else if HasPrefix e.Tag "mod." then viewModuleEvent env e
  else if HasPrefix e.Tag "net.sniff." then viewSnifferEvent env ord e
  else if HasPrefix e.Tag "syn.scan" then viewSynScanEvent env e
  else
    .ok ⟨"[" ++ env.Format e.Time eventTimeFormat ++ "] [" ++ env.Green e.Tag ++ "] "
          ++ env.SprintEvent e ++ "\n", e⟩

/-- The dispatcher `EventsStream.View`: the observable steps in order (the text
printed, then the call of `Session.Refresh`) and the event as it is left, or the
panic that ended the call. -/
def View (env : Env) (ord : MapOrder) (e : Event) (refresh : Bool) :
    Except Panic (List Effect × Event) :=
  match viewRender env ord e with
  | .ok r => .ok (.print r.text :: (if refresh then [.refresh] else []), r.event)
  | .error p => .error p

/-! ## The routing of the specification -/

/-- The renderers the dispatcher chooses from. -/
inductive Renderer where
  | log
  | endpoint
  | accessPoint
  | module
  | sniffer
  | portScan
  | fallback
deriving DecidableEq

/-- The ordered rule set of the specification: a predicate on the tag and the
renderer it routes to. -/
def rules : List ((String → Bool) × Renderer) :=
  [ (fun tag => decide (tag = "sys.log"), .log),
    (fun tag => HasPrefix tag "endpoint.", .endpoint),
    (fun tag => HasPrefix tag "wifi.ap.", .accessPoint),
    (fun tag => HasPrefix tag "mod.", .module),
    (fun tag => HasPrefix tag "net.sniff.", .sniffer),
    (fun tag => HasPrefix tag "syn.scan", .portScan) ]

/-- First match wins; the generic renderer when no rule matches. -/
def selectRenderer (tag : String) : Renderer :=
  match rules.find? (fun rule => rule.1 tag) with
  | some rule => rule.2
  | none => .fallback

/-- The leading column shared by all renderers. -/
def leadColumn (env : Env) (e : Event) : String :=
  "[" ++ env.Format e.Time "15:04:05" ++ "] [" ++ env.Green e.Tag ++ "] "

/-- The generic renderer: time, tag and the default textual form of the event. -/
def viewFallback (env : Env) (e : Event) : Except Panic Rendered :=
  .ok ⟨"[" ++ env.Format e.Time "15:04:05" ++ "] [" ++ env.Green e.Tag ++ "] "
        ++ env.SprintEvent e ++ "\n", e⟩

/-- The renderer function a `Renderer` stands for. -/
def runRenderer (env : Env) (ord : MapOrder) : Renderer → Event → Except Panic Rendered
  | .log => viewLogEvent env
  | .endpoint => viewEndpointEvent env
  | .accessPoint => viewApEvent env
  | .module => viewModuleEvent env
  | .sniffer => viewSnifferEvent env ord
  | .portScan => viewSynScanEvent env
  | .fallback => viewFallback env

/-- What `View` does once the renderer has returned: report the printed text,
then refresh when asked to; a panic of the renderer ends the call. -/
def finish (r : Except Panic Rendered) (refresh : Bool) : Except Panic (List Effect × Event) :=
  match r with
  | .ok r => .ok (.print r.text :: (if refresh then [.refresh] else []), r.event)
  | .error p => .error p

/-- The payload has the shape the tag family of the event implies: the payload
type the routed renderer narrows to, behind a pointer that is not nil; for
`net.sniff.leak.http` the inner data is a request, and a request that is dumped
carries its URL.  The module renderer and the generic renderer take any
payload. -/
def WellShaped (e : Event) : Bool :=
  if e.Tag = "sys.log" then
    match e.Data with
    | .logMessage _ => true
    | _ => false
  else if HasPrefix e.Tag "endpoint." then
    match e.Data with
    | .endpoint (some _) => true
    | _ => false
  else if HasPrefix e.Tag "wifi.ap." then
    match e.Data with
    | .accessPoint (some _) => true
    | _ => false
  else if HasPrefix e.Tag "mod." then true
  else if HasPrefix e.Tag "net.sniff." then
    match e.Data with
    | .sniffer se =>
      if e.Tag = "net.sniff.leak.http" then
        match se.Data with
        | .request (some req) => decide (req.Method = "GET") || req.URL.isSome
        | _ => false
      else true
    | _ => false
  else if HasPrefix e.Tag "syn.scan" then
    match e.Data with
    | .synScan _ => true
    | _ => false
  else true

/-- The lines of a block, one after the other. -/
def concatLines : List String → String
  | [] => ""
  | line :: rest => line ++ concatLines rest

/-- The part of the dump every dumped request gets: the method line, the URL
line and the header block, one line per header in the order of the loop. -/
def dumpHead (env : Env) (ord : MapOrder) (req : Request) (u : URL) : String :=
  "\n\n" ++ ("  Method: " ++ env.Yellow req.Method ++ "\n")
    ++ ("  URL: " ++ env.Yellow u.text ++ "\n")
    ++ "  Headers:\n"
    ++ concatLines ((ord.header req.Header).map (headerLine env))

/-- The form section of a dump: its title and one line per form field. -/
def formSection (env : Env) (fields : Values) : String :=
  "  \n  Form:\n\n" ++ concatLines (fields.map (formLine env))

/-- The body section of a dump: its title and the bytes of the body as text. -/
def bodySection (env : Env) (b : String) : String :=
  "  \n  " ++ env.Bold "Body" ++ ":\n\n    " ++ b ++ "\n"

/-- Rendering an event twice: the second call sees the event as the first call
left it.  The result is what each call printed, and the event at the end. -/
def viewTwice (env : Env) (ord1 ord2 : MapOrder) (e : Event) (refresh : Bool) :
    Except Panic (List Effect × List Effect × Event) :=
  match View env ord1 e refresh with
  | .error p => .error p
  | .ok (out1, e1) =>
    match View env ord2 e1 refresh with
    | .error p => .error p
    | .ok (out2, e2) => .ok (out1, out2, e2)

/-- The event reaches the dump of the sniffer renderer: its tag is
`net.sniff.leak.http` and it carries a request whose method is not `GET`. -/
def takesHttpDump (e : Event) : Bool :=
  decide (e.Tag = "net.sniff.leak.http") &&
    match e.Data with
    | .sniffer se =>
      match se.Data with
      | .request (some req) => decide (req.Method ≠ "GET")
      | _ => false
    | _ => false

/-- The variable `vend` of the access-point renderer. -/
def apVend (ap : AccessPoint) : String :=
  if ap.Vendor ≠ "" then " (" ++ ap.Vendor ++ ")" else ""

/-- The variable `vend` of the endpoint renderer. -/
def endpointVend (t : Endpoint) : String :=
  if t.Vendor ≠ "" then " (" ++ t.Vendor ++ ")" else ""

/-- The optional vendor suffix of the specification: the vendor in parentheses
after a blank if the vendor is not empty, else the empty string. -/
def vendorSuffix (v : String) : String :=
  if v = "" then "" else " (" ++ v ++ ")"

/-- The text `part` occurs in the text `s`. -/
def Contains (s part : String) : Prop :=
  ∃ before after, s = before ++ part ++ after

/-- Modelled from the spec: the styling functions of package `core` are declared
outside this file; the specification describes them as wrapping a text with a
colour or weight marker, or passing it through. -/
def Wraps (style : String → String) : Prop :=
  ∃ opening closing, ∀ s, style s = opening ++ s ++ closing

/-- First match wins over any list of rules; the generic renderer when no rule
matches. -/
def selectFrom (rs : List ((String → Bool) × Renderer)) (tag : String) : Renderer :=
  match rs.find? (fun rule => rule.1 tag) with
  | some rule => rule.2
  | none => .fallback

/-- The first three characters of the tags a renderer is routed from. -/
def routeKey : Renderer → List Char
  | .log => ['s', 'y', 's']
  | .endpoint => ['e', 'n', 'd']
  | .accessPoint => ['w', 'i', 'f']
  | .module => ['m', 'o', 'd']
  | .sniffer => ['n', 'e', 't']
  | .portScan => ['s', 'y', 'n']
  | .fallback => []

/-! ## Concrete instances -/

/-- Two decimal digits. -/
def pad2 (n : Nat) : String :=
  if n < 10 then "0" ++ toString n else toString n

/-- An environment with pass-through styling, the clock reading as time format
and descriptions as textual forms; `pf` is the behaviour of `ParseForm`. -/
def plainEnv (pf : Request → Option String × Request) : Env where
  Green := id
  Bold := id
  Red := id
  Yellow := id
  Format := fun t _ => pad2 t.hour ++ ":" ++ pad2 t.minute ++ ":" ++ pad2 t.second
  SprintData := fun d =>
    match d with
    | .other v => v.desc
    | _ => "<data>"
  SprintInner := fun d =>
    match d with
    | .other v => v.desc
    | .request (some req) => "<request " ++ req.Method ++ ">"
    | _ => "<nil>"
  SprintEvent := fun e => "<event " ++ e.Tag ++ ">"
  ParseForm := pf

/-- A `ParseForm` that has nothing left to do: it returns nil and leaves the
request as it is, as on a request whose form is already parsed, or on one with
neither a form-encoded body nor a query. -/
def parseNothing (req : Request) : Option String × Request := (none, req)

/-- A `ParseForm` that returns an error before it reads the body, as on a
request whose `Content-Type` is malformed. -/
def parseFails (req : Request) : Option String × Request :=
  (some "mime: invalid media parameter", req)

/-- Maps visited in the order they are written down. -/
def orderAsGiven : MapOrder := ⟨id, id⟩

/-- Maps visited in the opposite order. -/
def orderReversed : MapOrder := ⟨List.reverse, List.reverse⟩

/-- A clock reading. -/
def noon : Time := ⟨12, 0, 5⟩

/-- A log event without its payload. -/
def strayLogEvent : Event := ⟨"sys.log", noon, .absent, "inf"⟩

/-- A leak event whose sniffer payload carries no inner data. -/
def emptyLeakEvent : Event := ⟨"net.sniff.leak.http", noon, .sniffer ⟨"leak", .absent⟩, ""⟩

/-- A leak event whose inner data is not a request. -/
def stringLeakEvent : Event :=
  ⟨"net.sniff.leak.http", noon, .sniffer ⟨"leak", .other ⟨"password"⟩⟩, ""⟩

/-- A well-formed log event. -/
def logEvent : Event := ⟨"sys.log", noon, .logMessage ⟨"started"⟩, "inf"⟩

/-- An event of a family the dispatcher has no renderer for. -/
def tickEvent : Event := ⟨"tick", noon, .other ⟨"1"⟩, ""⟩

/-- A new access point without vendor. -/
def apEvent : Event :=
  ⟨"wifi.ap.new", noon, .accessPoint (some ⟨"TestNet", "AA:BB:CC:DD:EE:FF", "", "ap"⟩), ""⟩

/-- A leaked `POST` request with two headers, no form and an empty body. -/
def postEvent : Event :=
  ⟨"net.sniff.leak.http", noon,
    .sniffer ⟨"leak", .request (some ⟨"POST", some ⟨"/login"⟩,
      [("User-Agent", ["curl"]), ("Accept", ["text/html", "text/plain"])], [],
      some ⟨"", false⟩⟩)⟩, ""⟩

/-- A leaked `GET` request. -/
def getRequest : Request := ⟨"GET", some ⟨"/index"⟩, [], [], none⟩

/-- The sniffer payload of a leaked `GET` request. -/
def getLeak : SnifferEvent := ⟨"leak", .request (some getRequest)⟩

/-- A sniffer payload of another sniffer tag, carrying a displayable value. -/
def dnsLeak : SnifferEvent := ⟨"dns", .other ⟨"example.com"⟩⟩

/-- A `POST` request with a malformed `Content-Type`, whose body yields some
bytes and then a read error. -/
def brokenRequest : Request :=
  ⟨"POST", some ⟨"/login"⟩, [("Content-Type", ["text/plain; charset"])], [],
    some ⟨"user=bob&pass", true⟩⟩

/-- The sniffer payload of the leaked request with the broken body. -/
def brokenLeak : SnifferEvent := ⟨"leak", .request (some brokenRequest)⟩

/-- The leak event of the request with the broken body. -/
def brokenBodyEvent : Event := ⟨"net.sniff.leak.http", noon, .sniffer brokenLeak, ""⟩

/-- A `POST` request whose form is already parsed into two fields. -/
def formRequest : Request :=
  ⟨"POST", some ⟨"/login"⟩, [("Content-Type", ["application/x-www-form-urlencoded"])],
    [("user", ["bob"]), ("lang", ["en", "fr"])], some ⟨"", false⟩⟩

/-- The sniffer payload of the leaked request with the parsed form. -/
def formLeak : SnifferEvent := ⟨"leak", .request (some formRequest)⟩

/-- A lost endpoint with both an alias and a host name. -/
def lostEvent : Event :=
  ⟨"endpoint.lost", noon,
    .endpoint (some ⟨"192.168.1.7", "de:ad:be:ef:00:01", "", "printer", "hp.local", "ep"⟩), ""⟩

/-- The endpoint of vendor `Acme`. -/
def acmeEndpoint : Endpoint :=
  ⟨"192.168.1.9", "de:ad:be:ef:00:02", "Acme", "", "", "ep"⟩

/-- A new endpoint of vendor `Acme`. -/
def newEndpointEvent : Event := ⟨"endpoint.new", noon, .endpoint (some acmeEndpoint), ""⟩

/-- The access point `TestNet` without vendor. -/
def testNet : AccessPoint := ⟨"TestNet", "AA:BB:CC:DD:EE:FF", "", "ap"⟩

/-- An access point of vendor `Acme`. -/
def acmeAccessPoint : AccessPoint := ⟨"Lab", "AA:BB:CC:DD:EE:00", "Acme", "ap"⟩

/-- An open port found by the scanner. -/
def scanEvent : Event := ⟨"syn.scan", noon, .synScan ⟨"10.0.0.5", 443⟩, ""⟩

/-- A `ParseForm` on a `POST` request whose body is form-encoded and holds a
malformed escape: it reads the body to its end and returns the error of the
query parser. -/
def parseDrains (req : Request) : Option String × Request :=
  (some "invalid URL escape",
    { req with Body := req.Body.map (fun b => { b with pending := "" }) })

/-- A `POST` request with a form-encoded body that holds a malformed escape. -/
def escRequest : Request :=
  ⟨"POST", some ⟨"/login"⟩, [("Content-Type", ["application/x-www-form-urlencoded"])], [],
    some ⟨"user=%zz", false⟩⟩

/-- The sniffer payload of the leaked request with the malformed escape. -/
def escLeak : SnifferEvent := ⟨"leak", .request (some escRequest)⟩

/-! ## Auxiliary facts -/

/-- A text that ends in a newline is not empty. -/
theorem append_newline_ne_empty (a : String) : a ++ "\n" ≠ "" := by
  intro hab
  have hd : (a ++ "\n").data = [] := by rw [hab]
  rw [String.data_append] at hd
  have hn : ("\n" : String).data = [] := (List.append_eq_nil.mp hd).2
  exact absurd hn (by decide)

/-- The text accumulated by a `range` loop that appends one line per entry. -/
theorem foldl_append_lines (f : String × List String → String) (l : Values) (init : String) :
    l.foldl (fun acc kv => acc ++ f kv) init = init ++ concatLines (l.map f) := by
  induction l generalizing init with
  | nil => simp [concatLines]
  | cons x xs ih =>
    simp only [List.foldl_cons, List.map_cons, concatLines]
    rw [ih, String.append_assoc]

/-- The rendering part of `View` is the renderer the rule set selects. -/
theorem viewRender_eq_select (env : Env) (ord : MapOrder) (e : Event) :
    viewRender env ord e = runRenderer env ord (selectRenderer e.Tag) e := by
  unfold viewRender selectRenderer rules
  by_cases h1 : e.Tag = "sys.log"
  · simp [List.find?, h1, runRenderer]
  by_cases h2 : HasPrefix e.Tag "endpoint." = true
  · simp [List.find?, h1, h2, runRenderer]
  by_cases h3 : HasPrefix e.Tag "wifi.ap." = true
  · simp [List.find?, h1, h2, h3, runRenderer]
  by_cases h4 : HasPrefix e.Tag "mod." = true
  · simp [List.find?, h1, h2, h3, h4, runRenderer]
  by_cases h5 : HasPrefix e.Tag "net.sniff." = true
  · simp [List.find?, h1, h2, h3, h4, h5, runRenderer]
  by_cases h6 : HasPrefix e.Tag "syn.scan" = true
  · simp [List.find?, h1, h2, h3, h4, h5, h6, runRenderer]
  · simp [List.find?, h1, h2, h3, h4, h5, h6, runRenderer, viewFallback, eventTimeFormat]

/-- The text of the log renderer, split at the leading column. -/
theorem viewLogEvent_shape (env : Env) (e : Event) (m : LogMessage)
    (h : e.Data = .logMessage m) :
    viewLogEvent env e
      = .ok ⟨leadColumn env e ++ ("[" ++ e.Label ++ "] " ++ m.Message) ++ "\n", e⟩ := by
  have hs : ("] [" : String) = "] " ++ "[" := by decide
  simp only [viewLogEvent, h, leadColumn, eventTimeFormat]
  rw [hs]
  simp only [String.append_assoc]

/-- The text of the access-point renderer, split at the leading column. -/
theorem viewApEvent_shape (env : Env) (e : Event) (ap : AccessPoint)
    (h : e.Data = .accessPoint (some ap)) :
    ∃ rest, viewApEvent env e = .ok ⟨leadColumn env e ++ rest ++ "\n", e⟩ := by
  have hs : ("] WiFi access point " : String) = "] " ++ "WiFi access point " := by decide
  have hl : (") lost.\n" : String) = ") lost." ++ "\n" := by decide
  have hd : (".\n" : String) = "." ++ "\n" := by decide
  simp only [viewApEvent, h, leadColumn, eventTimeFormat]
  by_cases hnew : e.Tag = "wifi.ap.new"
  · refine ⟨"WiFi access point " ++ env.Bold ap.ESSID ++ " detected as "
      ++ env.Green ap.BSSID ++ (if ap.Vendor ≠ "" then " (" ++ ap.Vendor ++ ")" else "") ++ ".", ?_⟩
    rw [if_pos hnew, hs, hd]
    simp only [String.append_assoc]
  by_cases hlost : e.Tag = "wifi.ap.lost"
  · refine ⟨"WiFi access point " ++ env.Red ap.ESSID ++ " (" ++ ap.BSSID ++ ") lost.", ?_⟩
    rw [if_neg hnew, if_pos hlost, hs, hl]
    simp only [String.append_assoc]
  · refine ⟨ap.toStr, ?_⟩
    rw [if_neg hnew, if_neg hlost]

/-- The text of the endpoint renderer, split at the leading column. -/
theorem viewEndpointEvent_shape (env : Env) (e : Event) (t : Endpoint)
    (h : e.Data = .endpoint (some t)) :
    ∃ rest, viewEndpointEvent env e = .ok ⟨leadColumn env e ++ rest ++ "\n", e⟩ := by
  have hs : ("] Endpoint " : String) = "] " ++ "Endpoint " := by decide
  have hl : (" lost.\n" : String) = " lost." ++ "\n" := by decide
  have hd : (".\n" : String) = "." ++ "\n" := by decide
  simp only [viewEndpointEvent, h, leadColumn, eventTimeFormat]
  by_cases hnew : e.Tag = "endpoint.new"
  · refine ⟨"Endpoint " ++ env.Bold t.IpAddress ++ " detected as "
      ++ env.Green t.HwAddress ++ (if t.Vendor ≠ "" then " (" ++ t.Vendor ++ ")" else "") ++ ".", ?_⟩
    rw [if_pos hnew, hs, hd]
    simp only [String.append_assoc]
  by_cases hlost : e.Tag = "endpoint.lost"
  · refine ⟨"Endpoint " ++ env.Red t.IpAddress
      ++ (if t.Alias ≠ "" then " (" ++ t.Alias ++ ")"
          else if t.Hostname ≠ "" then " (" ++ t.Hostname ++ ")" else "") ++ " lost.", ?_⟩
    rw [if_neg hnew, if_pos hlost, hs, hl]
    simp only [String.append_assoc]
  · refine ⟨t.toStr, ?_⟩
    rw [if_neg hnew, if_neg hlost]

/-- The text of the port-scan renderer, split at the leading column. -/
theorem viewSynScanEvent_shape (env : Env) (e : Event) (se : SynScanEvent)
    (h : e.Data = .synScan se) :
    viewSynScanEvent env e
      = .ok ⟨leadColumn env e ++ ("Found open port " ++ toString se.Port ++ " for "
              ++ env.Bold se.Address) ++ "\n", e⟩ := by
  have hs : ("] Found open port " : String) = "] " ++ "Found open port " := by decide
  simp only [viewSynScanEvent, h, leadColumn, eventTimeFormat]
  rw [hs]
  simp only [String.append_assoc]

/-- The dump of a request whose form parsing succeeds. -/
theorem httpDump_form (env : Env) (ord : MapOrder) (req req1 : Request) (u : URL)
    (hu : req.URL = some u) (hp : env.ParseForm req = (none, req1)) :
    httpDump env ord req
      = .ok (dumpHead env ord req u ++ formSection env (ord.form req1.Form), req1) := by
  simp only [httpDump, hu, hp, foldl_append_lines, dumpHead, formSection,
    String.append_assoc, String.empty_append]

/-- The dump of a request whose form parsing fails and whose body is present. -/
theorem httpDump_body (env : Env) (ord : MapOrder) (req req1 : Request) (u : URL)
    (err : String) (body : Body)
    (hu : req.URL = some u) (hp : env.ParseForm req = (some err, req1))
    (hb : req1.Body = some body) :
    httpDump env ord req
      = .ok (dumpHead env ord req u ++ bodySection env body.pending,
             { req1 with Body := some { body with pending := "" } }) := by
  simp only [httpDump, hu, hp, hb, ReadAll, foldl_append_lines, dumpHead, bodySection,
    String.append_assoc, String.empty_append]

/-- The dump of a request whose form parsing fails and whose body is nil. -/
theorem httpDump_bare (env : Env) (ord : MapOrder) (req req1 : Request) (u : URL)
    (err : String)
    (hu : req.URL = some u) (hp : env.ParseForm req = (some err, req1))
    (hb : req1.Body = none) :
    httpDump env ord req = .ok (dumpHead env ord req u, req1) := by
  simp only [httpDump, hu, hp, hb, foldl_append_lines, dumpHead,
    String.append_assoc, String.empty_append]

/-- A request that carries its URL is dumped without a panic. -/
theorem httpDump_ok (env : Env) (ord : MapOrder) (req : Request) (u : URL)
    (hu : req.URL = some u) :
    ∃ misc req1, httpDump env ord req = .ok (misc, req1) := by
  rcases hp : env.ParseForm req with ⟨err, req1⟩
  cases err with
  | none => exact ⟨_, _, httpDump_form env ord req req1 u hu hp⟩
  | some err =>
    cases hb : req1.Body with
    | none => exact ⟨_, _, httpDump_bare env ord req req1 u err hu hp hb⟩
    | some body => exact ⟨_, _, httpDump_body env ord req req1 u err body hu hp hb⟩

/-- The variable `misc` for a tag other than `net.sniff.leak.http`. -/
theorem snifferMisc_plain (env : Env) (ord : MapOrder) (tag : String) (se : SnifferEvent)
    (ht : tag ≠ "net.sniff.leak.http") :
    snifferMisc env ord tag se
      = .ok (if se.Data ≠ .absent then env.SprintInner se.Data else "", se) := by
  unfold snifferMisc
  rw [if_neg ht]
  split_ifs <;> rfl

/-- The variable `misc` for `net.sniff.leak.http` and a `GET` request. -/
theorem snifferMisc_get (env : Env) (ord : MapOrder) (se : SnifferEvent) (req : Request)
    (hd : se.Data = .request (some req)) (hg : req.Method = "GET") :
    snifferMisc env ord "net.sniff.leak.http" se = .ok ("", se) := by
  simp [snifferMisc, hd, hg]

/-- The variable `misc` for `net.sniff.leak.http` and a request that is dumped. -/
theorem snifferMisc_dump (env : Env) (ord : MapOrder) (se : SnifferEvent) (req req1 : Request)
    (misc : String)
    (hd : se.Data = .request (some req)) (hg : req.Method ≠ "GET")
    (hh : httpDump env ord req = .ok (misc, req1)) :
    snifferMisc env ord "net.sniff.leak.http" se
      = .ok (misc, { se with Data := .request (some req1) }) := by
  simp [snifferMisc, hd, hg, hh]

/-- A request without URL that would be dumped makes the renderer panic. -/
theorem snifferMisc_no_url (env : Env) (ord : MapOrder) (se : SnifferEvent) (req : Request)
    (hd : se.Data = .request (some req)) (hg : req.Method ≠ "GET") (hu : req.URL = none) :
    snifferMisc env ord "net.sniff.leak.http" se = .error .nilDereference := by
  simp [snifferMisc, hd, hg, httpDump, hu]

/-- The text of the sniffer renderer once `misc` is known. -/
theorem viewSnifferEvent_of_misc (env : Env) (ord : MapOrder) (e : Event) (se se1 : SnifferEvent)
    (misc : String) (h : e.Data = .sniffer se)
    (hm : snifferMisc env ord e.Tag se = .ok (misc, se1)) :
    viewSnifferEvent env ord e
      = .ok ⟨leadColumn env e ++ (se.Message ++ " " ++ misc) ++ "\n",
             { e with Data := .sniffer se1 }⟩ := by
  simp only [viewSnifferEvent, h, hm, leadColumn, eventTimeFormat, String.append_assoc]

/-- A sniffer event of the expected shape gets its `misc` without a panic. -/
theorem snifferMisc_ok (env : Env) (ord : MapOrder) (tag : String) (se : SnifferEvent)
    (h : tag = "net.sniff.leak.http" →
      ∃ req, se.Data = .request (some req) ∧ (req.Method = "GET" ∨ req.URL.isSome = true)) :
    ∃ misc se1, snifferMisc env ord tag se = .ok (misc, se1) := by
  by_cases ht : tag = "net.sniff.leak.http"
  · obtain ⟨req, hd, hr⟩ := h ht
    subst ht
    by_cases hg : req.Method = "GET"
    · exact ⟨_, _, snifferMisc_get env ord se req hd hg⟩
    · have hu : req.URL.isSome = true := hr.resolve_left hg
      obtain ⟨u, hu⟩ := Option.isSome_iff_exists.mp hu
      obtain ⟨misc, req1, hh⟩ := httpDump_ok env ord req u hu
      exact ⟨_, _, snifferMisc_dump env ord se req req1 misc hd hg hh⟩
  · exact ⟨_, _, snifferMisc_plain env ord tag se ht⟩

/-- Every event whose payload has the shape of its tag family is rendered, and
its text is the leading column, the rest of the record and a newline. -/
theorem viewRender_wellShaped (env : Env) (ord : MapOrder) (e : Event)
    (h : WellShaped e = true) :
    ∃ rest e1, viewRender env ord e = .ok ⟨leadColumn env e ++ rest ++ "\n", e1⟩ := by
  unfold WellShaped at h
  unfold viewRender
  by_cases h1 : e.Tag = "sys.log"
  · rw [if_pos h1] at h ⊢
    cases hd : e.Data with
    | logMessage m => exact ⟨_, _, viewLogEvent_shape env e m hd⟩
    | _ => simp [hd] at h
  rw [if_neg h1] at h ⊢
  by_cases h2 : HasPrefix e.Tag "endpoint." = true
  · rw [if_pos h2] at h ⊢
    cases hd : e.Data with
    | endpoint t =>
      cases t with
      | none => simp [hd] at h
      | some t =>
        obtain ⟨rest, hr⟩ := viewEndpointEvent_shape env e t hd
        exact ⟨rest, e, hr⟩
    | _ => simp [hd] at h
  rw [if_neg h2] at h ⊢
  by_cases h3 : HasPrefix e.Tag "wifi.ap." = true
  · rw [if_pos h3] at h ⊢
    cases hd : e.Data with
    | accessPoint ap =>
      cases ap with
      | none => simp [hd] at h
      | some ap =>
        obtain ⟨rest, hr⟩ := viewApEvent_shape env e ap hd
        exact ⟨rest, e, hr⟩
    | _ => simp [hd] at h
  rw [if_neg h3] at h ⊢
  by_cases h4 : HasPrefix e.Tag "mod." = true
  · rw [if_pos h4]
    exact ⟨env.SprintData e.Data, e, rfl⟩
  rw [if_neg h4] at h ⊢
  by_cases h5 : HasPrefix e.Tag "net.sniff." = true
  · rw [if_pos h5] at h ⊢
    cases hd : e.Data with
    | sniffer se =>
      have hs : e.Tag = "net.sniff.leak.http" →
          ∃ req, se.Data = .request (some req)
            ∧ (req.Method = "GET" ∨ req.URL.isSome = true) := by
        intro ht
        rw [hd] at h
        simp only [ht, if_true] at h
        cases hi : se.Data with
        | request r =>
          cases r with
          | none => simp [hi] at h
          | some req =>
            refine ⟨req, rfl, ?_⟩
            simpa [hi] using h
        | _ => simp [hi] at h
      obtain ⟨misc, se1, hm⟩ := snifferMisc_ok env ord e.Tag se hs
      exact ⟨_, _, viewSnifferEvent_of_misc env ord e se se1 misc hd hm⟩
    | _ => simp [hd] at h
  rw [if_neg h5] at h ⊢
  by_cases h6 : HasPrefix e.Tag "syn.scan" = true
  · rw [if_pos h6] at h ⊢
    cases hd : e.Data with
    | synScan se => exact ⟨_, _, viewSynScanEvent_shape env e se hd⟩
    | _ => simp [hd] at h
  rw [if_neg h6]
  exact ⟨env.SprintEvent e, e, rfl⟩

/-- Putting back the payload an event already has leaves the event as it is. -/
theorem Event.with_same_data (e : Event) (d : Payload) (h : e.Data = d) :
    ({ e with Data := d } : Event) = e := by
  cases e
  simp only at h
  subst h
  rfl

/-- Outside the dump, `misc` does not depend on the map order and the sniffer
event is left as it is. -/
theorem snifferMisc_frame (env : Env) (ord : MapOrder) (tag : String) (se : SnifferEvent)
    (h : ¬ (tag = "net.sniff.leak.http"
            ∧ ∃ req, se.Data = .request (some req) ∧ req.Method ≠ "GET")) :
    (∀ ord2, snifferMisc env ord2 tag se = snifferMisc env ord tag se)
    ∧ ∀ misc se1, snifferMisc env ord tag se = .ok (misc, se1) → se1 = se := by
  by_cases ht : tag = "net.sniff.leak.http"
  · subst ht
    cases hd : se.Data with
    | request r =>
      cases r with
      | none => simp [snifferMisc, hd]
      | some req =>
        have hg : req.Method = "GET" := by
          by_contra hne
          exact h ⟨rfl, req, hd, hne⟩
        constructor
        · intro ord2
          rw [snifferMisc_get env ord2 se req hd hg, snifferMisc_get env ord se req hd hg]
        · intro misc se1 hm
          rw [snifferMisc_get env ord se req hd hg] at hm
          cases hm
          rfl
    | absent => simp [snifferMisc, hd]
    | other v => simp [snifferMisc, hd]
  · constructor
    · intro ord2
      rw [snifferMisc_plain env ord2 tag se ht, snifferMisc_plain env ord tag se ht]
    · intro misc se1 hm
      rw [snifferMisc_plain env ord tag se ht] at hm
      cases hm
      rfl

/-- A leak event is routed to the sniffer renderer. -/
theorem viewRender_leak (env : Env) (ord : MapOrder) (e : Event)
    (ht : e.Tag = "net.sniff.leak.http") :
    viewRender env ord e = viewSnifferEvent env ord e := by
  have h1 : ¬ ("net.sniff.leak.http" : String) = "sys.log" := by decide
  have h2 : HasPrefix "net.sniff.leak.http" "endpoint." = false := by decide
  have h3 : HasPrefix "net.sniff.leak.http" "wifi.ap." = false := by decide
  have h4 : HasPrefix "net.sniff.leak.http" "mod." = false := by decide
  have h5 : HasPrefix "net.sniff.leak.http" "net.sniff." = true := by decide
  simp [viewRender, ht, h1, h2, h3, h4, h5]

/-- The log renderer leaves the event as it is. -/
theorem viewLogEvent_event (env : Env) (e : Event) (r : Rendered)
    (h : viewLogEvent env e = .ok r) : r.event = e := by
  unfold viewLogEvent at h
  split at h
  · cases h; rfl
  · cases h

/-- The access-point renderer leaves the event as it is. -/
theorem viewApEvent_event (env : Env) (e : Event) (r : Rendered)
    (h : viewApEvent env e = .ok r) : r.event = e := by
  unfold viewApEvent at h
  split at h
  · simp only at h
    split_ifs at h <;> (cases h; rfl)
  · cases h
  · cases h

/-- The endpoint renderer leaves the event as it is. -/
theorem viewEndpointEvent_event (env : Env) (e : Event) (r : Rendered)
    (h : viewEndpointEvent env e = .ok r) : r.event = e := by
  unfold viewEndpointEvent at h
  split at h
  · simp only at h
    split_ifs at h <;> (cases h; rfl)
  · cases h
  · cases h

/-- The port-scan renderer leaves the event as it is. -/
theorem viewSynScanEvent_event (env : Env) (e : Event) (r : Rendered)
    (h : viewSynScanEvent env e = .ok r) : r.event = e := by
  unfold viewSynScanEvent at h
  split at h
  · cases h; rfl
  · cases h

/-- Outside the dump, the sniffer renderer does not depend on the map order and
leaves the event as it is. -/
theorem viewSnifferEvent_frame (env : Env) (ord : MapOrder) (e : Event)
    (h : takesHttpDump e = false) :
    (∀ ord2, viewSnifferEvent env ord2 e = viewSnifferEvent env ord e)
    ∧ ∀ r, viewSnifferEvent env ord e = .ok r → r.event = e := by
  cases hd : e.Data with
  | sniffer se =>
    have hn : ¬ (e.Tag = "net.sniff.leak.http"
        ∧ ∃ req, se.Data = .request (some req) ∧ req.Method ≠ "GET") := by
      rintro ⟨ht, req, hi, hg⟩
      simp [takesHttpDump, ht, hd, hi, hg] at h
    obtain ⟨hord, hev⟩ := snifferMisc_frame env ord e.Tag se hn
    constructor
    · intro ord2
      simp only [viewSnifferEvent, hd, hord ord2]
    · intro r hr
      cases hm : snifferMisc env ord e.Tag se with
      | error p => simp [viewSnifferEvent, hd, hm] at hr
      | ok res =>
        obtain ⟨misc, se1⟩ := res
        have hse : se1 = se := hev misc se1 hm
        subst hse
        rw [viewSnifferEvent_of_misc env ord e se1 se1 misc hd hm] at hr
        cases hr
        exact Event.with_same_data e _ hd
  | _ => simp [viewSnifferEvent, hd]

/-- Outside the dump, rendering does not depend on the map order and leaves the
event as it is. -/
theorem viewRender_frame (env : Env) (ord : MapOrder) (e : Event)
    (h : takesHttpDump e = false) :
    (∀ ord2, viewRender env ord2 e = viewRender env ord e)
    ∧ ∀ r, viewRender env ord e = .ok r → r.event = e := by
  obtain ⟨hord, hev⟩ := viewSnifferEvent_frame env ord e h
  unfold viewRender
  by_cases h1 : e.Tag = "sys.log"
  · simp only [if_pos h1]
    exact ⟨fun _ => trivial, viewLogEvent_event env e⟩
  simp only [if_neg h1]
  by_cases h2 : HasPrefix e.Tag "endpoint." = true
  · simp only [if_pos h2]
    exact ⟨fun _ => trivial, viewEndpointEvent_event env e⟩
  simp only [if_neg h2]
  by_cases h3 : HasPrefix e.Tag "wifi.ap." = true
  · simp only [if_pos h3]
    exact ⟨fun _ => trivial, viewApEvent_event env e⟩
  simp only [if_neg h3]
  by_cases h4 : HasPrefix e.Tag "mod." = true
  · simp only [if_pos h4]
    refine ⟨fun _ => trivial, fun r hr => ?_⟩
    cases hr
    rfl
  simp only [if_neg h4]
  by_cases h5 : HasPrefix e.Tag "net.sniff." = true
  · simp only [if_pos h5]
    exact ⟨hord, hev⟩
  simp only [if_neg h5]
  by_cases h6 : HasPrefix e.Tag "syn.scan" = true
  · simp only [if_pos h6]
    exact ⟨fun _ => trivial, viewSynScanEvent_event env e⟩
  simp only [if_neg h6]
  refine ⟨fun _ => trivial, fun r hr => ?_⟩
  cases hr
  rfl

/-- A tag starts with the characters of each of its prefixes. -/
theorem HasPrefix_take (s p : String) (n : Nat) (h : HasPrefix s p = true)
    (hn : n ≤ p.data.length) : s.data.take n = p.data.take n := by
  unfold HasPrefix at h
  obtain ⟨t, ht⟩ := List.isPrefixOf_iff_prefix.mp h
  rw [← ht, List.take_append_of_le_length hn]

/-- A rule that matches a tag fixes the first three characters of the tag. -/
theorem routeKey_of_rule (tag : String) (rule : (String → Bool) × Renderer)
    (hr : rule ∈ rules) (hm : rule.1 tag = true) : tag.data.take 3 = routeKey rule.2 := by
  simp only [rules, List.mem_cons, List.mem_singleton, List.not_mem_nil, or_false] at hr
  rcases hr with rfl | rfl | rfl | rfl | rfl | rfl
  · have ht : tag = "sys.log" := of_decide_eq_true hm
    subst ht
    decide
  · exact HasPrefix_take tag "endpoint." 3 hm (by decide)
  · exact HasPrefix_take tag "wifi.ap." 3 hm (by decide)
  · exact HasPrefix_take tag "mod." 3 hm (by decide)
  · exact HasPrefix_take tag "net.sniff." 3 hm (by decide)
  · exact HasPrefix_take tag "syn.scan" 3 hm (by decide)

/-- Two rules that match the same tag route to the same renderer. -/
theorem rules_agree (tag : String) (r1 r2 : (String → Bool) × Renderer)
    (h1 : r1 ∈ rules) (h2 : r2 ∈ rules) (m1 : r1.1 tag = true) (m2 : r2.1 tag = true) :
    r1 = r2 := by
  have k1 := routeKey_of_rule tag r1 h1 m1
  have k2 := routeKey_of_rule tag r2 h2 m2
  have hk : routeKey r1.2 = routeKey r2.2 := by rw [← k1, ← k2]
  simp only [rules, List.mem_cons, List.mem_singleton, List.not_mem_nil, or_false] at h1 h2
  rcases h1 with rfl | rfl | rfl | rfl | rfl | rfl <;>
    rcases h2 with rfl | rfl | rfl | rfl | rfl | rfl <;>
    first
      | rfl
      | exact absurd hk (by decide)

/-- The rule set in the order of the source is one of the lists `selectFrom`
ranges over. -/
theorem selectRenderer_eq_selectFrom (tag : String) :
    selectRenderer tag = selectFrom rules tag := rfl

/-- Whatever the order of the rules, a rule that matches the tag decides the
renderer. -/
theorem selectFrom_of_rule (rs : List ((String → Bool) × Renderer)) (tag : String)
    (rule : (String → Bool) × Renderer) (hp : rs.Perm rules)
    (hr : rule ∈ rules) (hm : rule.1 tag = true) : selectFrom rs tag = rule.2 := by
  unfold selectFrom
  cases hf : rs.find? (fun r => r.1 tag) with
  | none =>
    have hn := List.find?_eq_none.mp hf rule (hp.symm.subset hr)
    exact absurd hm hn
  | some r =>
    have hmem : r ∈ rules := hp.subset (List.mem_of_find?_eq_some hf)
    have hmatch : r.1 tag = true := by
      have hs := List.find?_some hf
      exact hs
    rw [rules_agree tag r rule hmem hr hmatch hm]

/-- Whatever the order of the rules, a tag no rule matches goes to the generic
renderer. -/
theorem selectFrom_of_no_rule (rs : List ((String → Bool) × Renderer)) (tag : String)
    (hp : rs.Perm rules) (hn : ∀ rule ∈ rules, ¬ rule.1 tag = true) :
    selectFrom rs tag = .fallback := by
  unfold selectFrom
  cases hf : rs.find? (fun r => r.1 tag) with
  | none => rfl
  | some r =>
    exact absurd (List.find?_some hf) (hn r (hp.subset (List.mem_of_find?_eq_some hf)))

/-- A tag with the prefix `endpoint.` is routed to the endpoint renderer. -/
theorem viewRender_endpoint (env : Env) (ord : MapOrder) (e : Event)
    (h : HasPrefix e.Tag "endpoint." = true) :
    viewRender env ord e = viewEndpointEvent env e := by
  rw [viewRender_eq_select, selectRenderer_eq_selectFrom,
    selectFrom_of_rule rules e.Tag (fun tag => HasPrefix tag "endpoint.", .endpoint)
      (List.Perm.refl _) (by simp [rules]) h]
  rfl

/-- A tag with the prefix `wifi.ap.` is routed to the access-point renderer. -/
theorem viewRender_accessPoint (env : Env) (ord : MapOrder) (e : Event)
    (h : HasPrefix e.Tag "wifi.ap." = true) :
    viewRender env ord e = viewApEvent env e := by
  rw [viewRender_eq_select, selectRenderer_eq_selectFrom,
    selectFrom_of_rule rules e.Tag (fun tag => HasPrefix tag "wifi.ap.", .accessPoint)
      (List.Perm.refl _) (by simp [rules]) h]
  rfl

/-- A tag with the prefix `syn.scan` is routed to the port-scan renderer. -/
theorem viewRender_portScan (env : Env) (ord : MapOrder) (e : Event)
    (h : HasPrefix e.Tag "syn.scan" = true) :
    viewRender env ord e = viewSynScanEvent env e := by
  rw [viewRender_eq_select, selectRenderer_eq_selectFrom,
    selectFrom_of_rule rules e.Tag (fun tag => HasPrefix tag "syn.scan", .portScan)
      (List.Perm.refl _) (by simp [rules]) h]
  rfl

/-- The two vendor suffixes of the source are the suffix of the specification. -/
theorem apVend_eq (ap : AccessPoint) : apVend ap = vendorSuffix ap.Vendor := by
  unfold apVend vendorSuffix
  by_cases h : ap.Vendor = "" <;> simp [h]

/-- The vendor suffix of the endpoint renderer is the suffix of the
specification. -/
theorem endpointVend_eq (t : Endpoint) : endpointVend t = vendorSuffix t.Vendor := by
  unfold endpointVend vendorSuffix
  by_cases h : t.Vendor = "" <;> simp [h]

/-- The text of the access-point renderer for `wifi.ap.new`. -/
theorem viewApEvent_new (env : Env) (e : Event) (ap : AccessPoint)
    (ht : e.Tag = "wifi.ap.new") (hd : e.Data = .accessPoint (some ap)) :
    viewApEvent env e
      = .ok ⟨"[" ++ env.Format e.Time "15:04:05" ++ "] [" ++ env.Green e.Tag
              ++ "] WiFi access point " ++ env.Bold ap.ESSID ++ " detected as "
              ++ env.Green ap.BSSID ++ apVend ap ++ ".\n", e⟩ := by
  simp only [viewApEvent, hd, apVend, eventTimeFormat]
  rw [if_pos ht]

/-- The text of the endpoint renderer for `endpoint.new`. -/
theorem viewEndpointEvent_new (env : Env) (e : Event) (t : Endpoint)
    (ht : e.Tag = "endpoint.new") (hd : e.Data = .endpoint (some t)) :
    viewEndpointEvent env e
      = .ok ⟨"[" ++ env.Format e.Time "15:04:05" ++ "] [" ++ env.Green e.Tag
              ++ "] Endpoint " ++ env.Bold t.IpAddress ++ " detected as "
              ++ env.Green t.HwAddress ++ endpointVend t ++ ".\n", e⟩ := by
  simp only [viewEndpointEvent, hd, endpointVend, eventTimeFormat]
  rw [if_pos ht]

/-- The text of the endpoint renderer for `endpoint.lost`. -/
theorem viewEndpointEvent_lost (env : Env) (e : Event) (t : Endpoint)
    (ht : e.Tag = "endpoint.lost") (hd : e.Data = .endpoint (some t)) :
    viewEndpointEvent env e
      = .ok ⟨"[" ++ env.Format e.Time "15:04:05" ++ "] [" ++ env.Green e.Tag
              ++ "] Endpoint " ++ env.Red t.IpAddress
              ++ (if t.Alias ≠ "" then " (" ++ t.Alias ++ ")"
                  else if t.Hostname ≠ "" then " (" ++ t.Hostname ++ ")" else "")
              ++ " lost.\n", e⟩ := by
  have hne : ¬ e.Tag = "endpoint.new" := by rw [ht]; decide
  simp only [viewEndpointEvent, hd, eventTimeFormat]
  rw [if_neg hne, if_pos ht]

/-- No two rules route to the same renderer. -/
theorem rules_distinct : List.Pairwise (fun a b => a.2 ≠ b.2) rules := by
  simp [rules]

/-- A list without repetition whose entries are all equal has at most one. -/
theorem length_le_one_of_all_eq {α : Type} (l : List α) (hn : l.Nodup)
    (he : ∀ a ∈ l, ∀ b ∈ l, a = b) : l.length ≤ 1 := by
  match l, hn, he with
  | [], _, _ => simp
  | [_], _, _ => simp
  | a :: b :: t, hn, he =>
    have hab : a = b := he a (by simp) b (by simp)
    have hne : a ≠ b := (List.nodup_cons.mp hn).1 ∘ fun h => h ▸ (by simp)
    exact absurd hab hne

/-- The dispatcher is the rendering part followed by `finish`. -/
theorem View_eq_finish (env : Env) (ord : MapOrder) (e : Event) (refresh : Bool) :
    View env ord e refresh = finish (viewRender env ord e) refresh := by
  unfold View finish
  rfl

/-- The dispatcher runs the renderer the rule set selects and finishes. -/
theorem View_runs_selected (env : Env) (ord : MapOrder) (e : Event) (refresh : Bool) :
    View env ord e refresh
      = finish (runRenderer env ord (selectRenderer e.Tag) e) refresh := by
  rw [View_eq_finish, viewRender_eq_select]

/-! ## Routing -/

/-- C1: for every event, `View` runs exactly the renderer that the ordered,
first-match-wins rule set of the specification selects for the tag (log for
`sys.log`, then the prefixes `endpoint.`, `wifi.ap.`, `mod.`, `net.sniff.`,
`syn.scan`, otherwise the generic renderer), and then finishes the call. -/
theorem View_selects_renderer (env : Env) (ord : MapOrder) (e : Event) (refresh : Bool) :
    View env ord e refresh
      = finish (runRenderer env ord (selectRenderer e.Tag) e) refresh := by
  rw [View_eq_finish, viewRender_eq_select]

/-! ## Completion and the shared leading column -/

/-- C2, refuted as stated: `View` aborts with a panic, and prints nothing, on a
`sys.log` event without a `LogMessage` payload, and on a `net.sniff.leak.http`
event whose inner data is absent or is not an HTTP request. -/
theorem View_aborts_on_shape_mismatch :
    View (plainEnv parseNothing) orderAsGiven strayLogEvent false = .error .typeAssertion
    ∧ View (plainEnv parseNothing) orderAsGiven emptyLeakEvent false = .error .typeAssertion
    ∧ View (plainEnv parseNothing) orderAsGiven stringLeakEvent false = .error .typeAssertion := by
  refine ⟨?_, ?_, ?_⟩ <;> rfl

/-- C2, amended: for every event whose payload has the shape its tag family
implies, `View` returns without a panic and without an error, and what it has
printed is a non-empty text that ends in a newline. -/
theorem View_completes_of_wellShaped (env : Env) (ord : MapOrder) (e : Event) (refresh : Bool)
    (h : WellShaped e = true) :
    ∃ text e1,
      View env ord e refresh = .ok (.print text :: (if refresh then [.refresh] else []), e1)
      ∧ (∃ line, text = line ++ "\n") ∧ text ≠ "" := by
  obtain ⟨rest, e1, hr⟩ := viewRender_wellShaped env ord e h
  refine ⟨leadColumn env e ++ rest ++ "\n", e1, ?_, ⟨_, rfl⟩, append_newline_ne_empty _⟩
  rw [View_eq_finish, hr]
  rfl

/-- C2, amended, on a log event. -/
theorem View_completes_of_wellShaped_witness :
    WellShaped logEvent = true ∧
    ∃ text e1,
      View (plainEnv parseNothing) orderAsGiven logEvent true
        = .ok (.print text :: (if true then [.refresh] else []), e1)
      ∧ (∃ line, text = line ++ "\n") ∧ text ≠ "" :=
  ⟨by decide, View_completes_of_wellShaped _ _ _ _ (by decide)⟩

/-- C3: for every event whose tag is not `sys.log` and has none of the prefixes
`endpoint.`, `wifi.ap.`, `mod.`, `net.sniff.`, `syn.scan`, `View` reaches the
generic renderer, and the output is the non-empty line made of the time, the
green tag and the default textual form of the whole event. -/
theorem View_fallback (env : Env) (ord : MapOrder) (e : Event) (refresh : Bool)
    (h1 : e.Tag ≠ "sys.log") (h2 : HasPrefix e.Tag "endpoint." = false)
    (h3 : HasPrefix e.Tag "wifi.ap." = false) (h4 : HasPrefix e.Tag "mod." = false)
    (h5 : HasPrefix e.Tag "net.sniff." = false) (h6 : HasPrefix e.Tag "syn.scan" = false) :
    selectRenderer e.Tag = .fallback
    ∧ View env ord e refresh
        = .ok (.print ("[" ++ env.Format e.Time "15:04:05" ++ "] [" ++ env.Green e.Tag ++ "] "
                  ++ env.SprintEvent e ++ "\n") :: (if refresh then [.refresh] else []), e)
    ∧ "[" ++ env.Format e.Time "15:04:05" ++ "] [" ++ env.Green e.Tag ++ "] "
        ++ env.SprintEvent e ++ "\n" ≠ "" := by
  refine ⟨?_, ?_, append_newline_ne_empty _⟩
  · simp [selectRenderer, rules, List.find?, h1, h2, h3, h4, h5, h6]
  · simp [View, viewRender, h1, h2, h3, h4, h5, h6, eventTimeFormat]

/-- C3 on an event tagged `tick`. -/
theorem View_fallback_witness :
    selectRenderer tickEvent.Tag = .fallback
    ∧ View (plainEnv parseNothing) orderAsGiven tickEvent false
        = .ok (.print ("[" ++ (plainEnv parseNothing).Format tickEvent.Time "15:04:05" ++ "] ["
                  ++ (plainEnv parseNothing).Green tickEvent.Tag ++ "] "
                  ++ (plainEnv parseNothing).SprintEvent tickEvent ++ "\n")
                :: (if false then [.refresh] else []), tickEvent)
    ∧ "[" ++ (plainEnv parseNothing).Format tickEvent.Time "15:04:05" ++ "] ["
        ++ (plainEnv parseNothing).Green tickEvent.Tag ++ "] "
        ++ (plainEnv parseNothing).SprintEvent tickEvent ++ "\n" ≠ "" :=
  View_fallback (plainEnv parseNothing) orderAsGiven tickEvent false
    (by decide) (by decide) (by decide) (by decide) (by decide) (by decide)

/-- C4: for every event with a payload of the shape its tag family implies, the
text `View` prints begins with the leading column `[` time in the layout
`15:04:05` `] [` green tag `] ` and ends with a newline. -/
theorem View_leading_column (env : Env) (ord : MapOrder) (e : Event) (refresh : Bool)
    (h : WellShaped e = true) :
    ∃ rest e1,
      View env ord e refresh
        = .ok (.print ("[" ++ env.Format e.Time "15:04:05" ++ "] [" ++ env.Green e.Tag ++ "] "
                  ++ rest ++ "\n") :: (if refresh then [.refresh] else []), e1) := by
  obtain ⟨rest, e1, hr⟩ := viewRender_wellShaped env ord e h
  refine ⟨rest, e1, ?_⟩
  rw [View_eq_finish, hr]
  rfl

/-- C4 on a new access point. -/
theorem View_leading_column_witness :
    WellShaped apEvent = true ∧
    ∃ rest e1,
      View (plainEnv parseNothing) orderAsGiven apEvent false
        = .ok (.print ("[" ++ (plainEnv parseNothing).Format apEvent.Time "15:04:05" ++ "] ["
                  ++ (plainEnv parseNothing).Green apEvent.Tag ++ "] "
                  ++ rest ++ "\n") :: (if false then [.refresh] else []), e1) :=
  ⟨by decide, View_leading_column _ _ _ _ (by decide)⟩

/-! ## Rendering twice -/

/-- C5, refuted as stated: a leaked `POST` request with the two headers
`User-Agent` and `Accept` is rendered twice; the first `range` over the header
map visits `User-Agent` first, the second visits `Accept` first, and the two
texts differ. -/
theorem viewTwice_differs_on_dump :
    viewTwice (plainEnv parseNothing) orderAsGiven orderReversed postEvent false
      = .ok ([.print ("[12:00:05] [net.sniff.leak.http] leak \n\n  Method: POST\n  URL: /login\n"
                ++ "  Headers:\n    User-Agent => curl\n    Accept => text/html, text/plain\n"
                ++ "  \n  Form:\n\n\n")],
             [.print ("[12:00:05] [net.sniff.leak.http] leak \n\n  Method: POST\n  URL: /login\n"
                ++ "  Headers:\n    Accept => text/html, text/plain\n    User-Agent => curl\n"
                ++ "  \n  Form:\n\n\n")],
             postEvent)
    ∧ ("[12:00:05] [net.sniff.leak.http] leak \n\n  Method: POST\n  URL: /login\n"
          ++ "  Headers:\n    User-Agent => curl\n    Accept => text/html, text/plain\n"
          ++ "  \n  Form:\n\n\n" : String)
        ≠ "[12:00:05] [net.sniff.leak.http] leak \n\n  Method: POST\n  URL: /login\n"
          ++ "  Headers:\n    Accept => text/html, text/plain\n    User-Agent => curl\n"
          ++ "  \n  Form:\n\n\n" := by
  constructor
  · rfl
  · decide

/-- C5, amended: for every event that does not reach the dump of a leaked
non-`GET` request, rendering it twice gives the same output both times, whatever
the orders in which maps are visited, and leaves the event as it was; if the
first call panics, so does rendering twice. -/
theorem viewTwice_same_outside_dump (env : Env) (ord1 ord2 : MapOrder) (e : Event)
    (refresh : Bool) (h : takesHttpDump e = false) :
    viewTwice env ord1 ord2 e refresh
      = match View env ord1 e refresh with
        | .ok (out, _) => .ok (out, out, e)
        | .error p => .error p := by
  obtain ⟨hord, hev⟩ := viewRender_frame env ord1 e h
  unfold viewTwice
  cases hr : viewRender env ord1 e with
  | error p => simp [View, hr]
  | ok r =>
    have he : r.event = e := hev r hr
    have h2 : viewRender env ord2 e = .ok r := by rw [hord ord2, hr]
    simp [View, hr, he, h2]

/-- C5, amended, on a new access point. -/
theorem viewTwice_same_outside_dump_witness :
    takesHttpDump apEvent = false ∧
    viewTwice (plainEnv parseNothing) orderAsGiven orderReversed apEvent true
      = match View (plainEnv parseNothing) orderAsGiven apEvent true with
        | .ok (out, _) => .ok (out, out, apEvent)
        | .error p => .error p :=
  ⟨by decide, viewTwice_same_outside_dump _ _ _ _ _ (by decide)⟩

/-! ## The variable `misc` of the sniffer renderer -/

/-- C6, refuted as stated: for `net.sniff.leak.http` and a present `GET`
request, which is not dumped, `misc` is the empty string although the default
textual form of the request is not empty; and for `net.sniff.leak.http` with
absent inner data there is no `misc` at all, the renderer panics. -/
theorem snifferMisc_get_not_textual_form :
    takesHttpDump ⟨"net.sniff.leak.http", noon, .sniffer getLeak, ""⟩ = false
    ∧ getLeak.Data ≠ .absent
    ∧ snifferMisc (plainEnv parseNothing) orderAsGiven "net.sniff.leak.http" getLeak
        = .ok ("", getLeak)
    ∧ (plainEnv parseNothing).SprintInner getLeak.Data = "<request GET>"
    ∧ snifferMisc (plainEnv parseNothing) orderAsGiven "net.sniff.leak.http" ⟨"leak", .absent⟩
        = .error .typeAssertion := by
  refine ⟨by decide, by decide, rfl, by decide, rfl⟩

/-- C6, amended: for every sniffer event whose tag is not `net.sniff.leak.http`,
`misc` is the default textual form of the inner data when the inner data is
present and the empty string when it is absent; for `net.sniff.leak.http` with a
present `GET` request, `misc` is the empty string. -/
theorem snifferMisc_outside_dump (env : Env) (ord : MapOrder) (tag : String)
    (se : SnifferEvent)
    (h : tag ≠ "net.sniff.leak.http"
          ∨ ∃ req, se.Data = .request (some req) ∧ req.Method = "GET") :
    snifferMisc env ord tag se
      = .ok (if tag = "net.sniff.leak.http" then ""
             else if se.Data ≠ .absent then env.SprintInner se.Data else "", se) := by
  by_cases ht : tag = "net.sniff.leak.http"
  · obtain ⟨req, hd, hg⟩ := h.resolve_left (not_not.mpr ht)
    subst ht
    rw [snifferMisc_get env ord se req hd hg, if_pos rfl]
  · rw [snifferMisc_plain env ord tag se ht, if_neg ht]

/-- C6, amended, on a sniffer event of another tag that carries a value. -/
theorem snifferMisc_outside_dump_witness :
    ("net.sniff.dns" ≠ "net.sniff.leak.http"
      ∨ ∃ req, dnsLeak.Data = .request (some req) ∧ req.Method = "GET")
    ∧ snifferMisc (plainEnv parseNothing) orderAsGiven "net.sniff.dns" dnsLeak
      = .ok (if "net.sniff.dns" = "net.sniff.leak.http" then ""
             else if dnsLeak.Data ≠ .absent then (plainEnv parseNothing).SprintInner dnsLeak.Data
             else "", dnsLeak) :=
  ⟨Or.inl (by decide), snifferMisc_outside_dump _ _ _ _ (Or.inl (by decide))⟩

/-- C7: for every `net.sniff.leak.http` event whose inner data is an HTTP
request with method `GET`, `misc` is the empty string, so no dump of method, URL,
headers, form or body is produced, and the line printed is the time, the green
tag, the message, a blank, `misc` and a newline; the event is left as it is. -/
theorem View_leak_get (env : Env) (ord : MapOrder) (e : Event) (refresh : Bool)
    (se : SnifferEvent) (req : Request)
    (ht : e.Tag = "net.sniff.leak.http") (hd : e.Data = .sniffer se)
    (hi : se.Data = .request (some req)) (hg : req.Method = "GET") :
    ∃ misc,
      snifferMisc env ord e.Tag se = .ok (misc, se)
      ∧ (misc = "" ∨ misc = env.SprintInner se.Data)
      ∧ misc = ""
      ∧ View env ord e refresh
          = .ok (.print ("[" ++ env.Format e.Time "15:04:05" ++ "] [" ++ env.Green e.Tag ++ "] "
                    ++ se.Message ++ " " ++ misc ++ "\n")
                  :: (if refresh then [.refresh] else []), e) := by
  have hm : snifferMisc env ord e.Tag se = .ok ("", se) := by
    rw [ht]
    exact snifferMisc_get env ord se req hi hg
  refine ⟨"", hm, Or.inl rfl, rfl, ?_⟩
  rw [View_eq_finish, viewRender_leak env ord e ht,
    viewSnifferEvent_of_misc env ord e se se "" hd hm, Event.with_same_data e _ hd]
  simp only [finish, leadColumn, String.append_assoc]

/-- C7 on a leaked `GET` request. -/
theorem View_leak_get_witness :
    ∃ misc,
      snifferMisc (plainEnv parseNothing) orderAsGiven "net.sniff.leak.http" getLeak
        = .ok (misc, getLeak)
      ∧ (misc = "" ∨ misc = (plainEnv parseNothing).SprintInner getLeak.Data)
      ∧ misc = ""
      ∧ View (plainEnv parseNothing) orderAsGiven
            ⟨"net.sniff.leak.http", noon, .sniffer getLeak, ""⟩ true
          = .ok (.print ("[" ++ (plainEnv parseNothing).Format noon "15:04:05" ++ "] ["
                    ++ (plainEnv parseNothing).Green "net.sniff.leak.http" ++ "] "
                    ++ getLeak.Message ++ " " ++ misc ++ "\n")
                  :: (if true then [.refresh] else []),
                 ⟨"net.sniff.leak.http", noon, .sniffer getLeak, ""⟩) :=
  View_leak_get (plainEnv parseNothing) orderAsGiven
    ⟨"net.sniff.leak.http", noon, .sniffer getLeak, ""⟩ true getLeak getRequest rfl rfl rfl rfl

/-! ## The dump of a leaked request -/

/-- C8, refuted as stated: a leaked `POST` request has a form-encoded body with
the raw bytes `user=%zz`; `ParseForm` reads the body to its end and fails on the
malformed escape; the body section of `misc` then holds no bytes at all, not the
raw bytes of the body. -/
theorem snifferMisc_body_drained_by_ParseForm :
    escRequest.Method ≠ "GET"
    ∧ escRequest.Body = some ⟨"user=%zz", false⟩
    ∧ (parseDrains escRequest).1 = some "invalid URL escape"
    ∧ snifferMisc (plainEnv parseDrains) orderAsGiven "net.sniff.leak.http" escLeak
        = .ok ("\n\n  Method: POST\n  URL: /login\n  Headers:\n"
                ++ "    Content-Type => application/x-www-form-urlencoded\n"
                ++ "  \n  Body:\n\n    \n",
               SnifferEvent.mk "leak"
                 (.request (some { escRequest with Body := some (Body.mk "" false) })))
    ∧ ("\n\n  Method: POST\n  URL: /login\n  Headers:\n"
          ++ "    Content-Type => application/x-www-form-urlencoded\n"
          ++ "  \n  Body:\n\n    \n" : String)
        ≠ "\n\n  Method: POST\n  URL: /login\n  Headers:\n"
          ++ "    Content-Type => application/x-www-form-urlencoded\n"
          ++ "  \n  Body:\n\n    user=%zz\n" := by
  refine ⟨by decide, rfl, rfl, rfl, by decide⟩

/-- C8, amended: for every `net.sniff.leak.http` sniffer event carrying a request
with a method other than `GET` whose form parsing fails and whose body is
present, `misc` is the method line, the URL line, the header block with one line
per header, and then the body section with, as text, the bytes `b` the body
still holds when form parsing returns; nothing follows it, so there is no form
section.  A request without URL makes the renderer panic instead. -/
theorem snifferMisc_body_dump (env : Env) (ord : MapOrder) (se : SnifferEvent)
    (req req1 : Request) (err : String) (body : Body)
    (hi : se.Data = .request (some req)) (hg : req.Method ≠ "GET")
    (hp : env.ParseForm req = (some err, req1)) (hb : req1.Body = some body) :
    snifferMisc env ord "net.sniff.leak.http" se
      = match req.URL with
        | none => .error .nilDereference
        | some u =>
          .ok ("\n\n" ++ ("  Method: " ++ env.Yellow req.Method ++ "\n")
                ++ ("  URL: " ++ env.Yellow u.text ++ "\n")
                ++ "  Headers:\n"
                ++ concatLines ((ord.header req.Header).map
                    (fun kv => "    " ++ env.Green kv.1 ++ " => "
                      ++ ", ".intercalate kv.2 ++ "\n"))
                ++ ("  \n  " ++ env.Bold "Body" ++ ":\n\n    " ++ body.pending ++ "\n"),
               SnifferEvent.mk se.Message
                 (.request (some { req1 with Body := some { body with pending := "" } }))) := by
  cases hu : req.URL with
  | none => exact snifferMisc_no_url env ord se req hi hg hu
  | some u =>
    rw [snifferMisc_dump env ord se req _ _ hi hg
      (httpDump_body env ord req req1 u err body hu hp hb)]
    rfl

/-- C8, amended, on the leaked `POST` request whose `Content-Type` is malformed. -/
theorem snifferMisc_body_dump_witness :
    snifferMisc (plainEnv parseFails) orderAsGiven "net.sniff.leak.http" brokenLeak
      = .ok ("\n\n" ++ ("  Method: " ++ (plainEnv parseFails).Yellow brokenRequest.Method ++ "\n")
              ++ ("  URL: " ++ (plainEnv parseFails).Yellow (URL.mk "/login").text ++ "\n")
              ++ "  Headers:\n"
              ++ concatLines ((orderAsGiven.header brokenRequest.Header).map
                  (fun kv => "    " ++ (plainEnv parseFails).Green kv.1 ++ " => "
                    ++ ", ".intercalate kv.2 ++ "\n"))
              ++ ("  \n  " ++ (plainEnv parseFails).Bold "Body" ++ ":\n\n    "
                    ++ (Body.mk "user=bob&pass" true).pending ++ "\n"),
             SnifferEvent.mk "leak"
               (.request (some { brokenRequest with Body := some (Body.mk "" true) }))) :=
  snifferMisc_body_dump (plainEnv parseFails) orderAsGiven brokenLeak brokenRequest brokenRequest
    "mime: invalid media parameter" ⟨"user=bob&pass", true⟩
    rfl (by decide) rfl rfl

/-- C9: for every `net.sniff.leak.http` sniffer event carrying a request with a
method other than `GET`, `misc` is the head of the dump followed by exactly one
of three things: the form section, with one line per form field made of four
blanks, the green name, ` => ` and the bold values joined by `, `, when form
parsing succeeds; the body section when it fails and a body is present; nothing
when it fails and the body is nil.  A form section and a body section never
occur together.  A request without URL makes the renderer panic before form
parsing, and nothing is rendered. -/
theorem snifferMisc_form_or_body (env : Env) (ord : MapOrder) (se : SnifferEvent)
    (req req1 : Request) (err : Option String)
    (hl : ord.Lawful)
    (hi : se.Data = .request (some req)) (hg : req.Method ≠ "GET")
    (hp : env.ParseForm req = (err, req1)) :
    (ord.form req1.Form).Perm req1.Form
    ∧ snifferMisc env ord "net.sniff.leak.http" se
        = match req.URL with
          | none => .error .nilDereference
          | some u =>
            .ok ("\n\n" ++ ("  Method: " ++ env.Yellow req.Method ++ "\n")
                  ++ ("  URL: " ++ env.Yellow u.text ++ "\n")
                  ++ "  Headers:\n"
                  ++ concatLines ((ord.header req.Header).map
                      (fun kv => "    " ++ env.Green kv.1 ++ " => "
                        ++ ", ".intercalate kv.2 ++ "\n"))
                  ++ (match err, req1.Body with
                      | none, _ =>
                        "  \n  Form:\n\n"
                          ++ concatLines ((ord.form req1.Form).map
                              (fun kv => "    " ++ env.Green kv.1 ++ " => "
                                ++ env.Bold (", ".intercalate kv.2) ++ "\n"))
                      | some _, some body =>
                        "  \n  " ++ env.Bold "Body" ++ ":\n\n    " ++ body.pending ++ "\n"
                      | some _, none => ""),
                 SnifferEvent.mk se.Message
                   (.request (some
                     (match err, req1.Body with
                      | some _, some body =>
                        { req1 with Body := some { body with pending := "" } }
                      | _, _ => req1)))) := by
  refine ⟨hl.2 req1.Form, ?_⟩
  cases hu : req.URL with
  | none => exact snifferMisc_no_url env ord se req hi hg hu
  | some u =>
    cases err with
    | none =>
      rw [snifferMisc_dump env ord se req _ _ hi hg (httpDump_form env ord req req1 u hu hp)]
      rfl
    | some msg =>
      cases hb : req1.Body with
      | none =>
        rw [snifferMisc_dump env ord se req _ _ hi hg
          (httpDump_bare env ord req req1 u msg hu hp hb)]
        simp only [dumpHead, headerLine, Join, String.append_empty]
        rfl
      | some body =>
        rw [snifferMisc_dump env ord se req _ _ hi hg
          (httpDump_body env ord req req1 u msg body hu hp hb)]
        rfl

/-- C9 on a leaked `POST` request with a parsed form of two fields. -/
theorem snifferMisc_form_or_body_witness :
    (orderAsGiven.form formRequest.Form).Perm formRequest.Form
    ∧ snifferMisc (plainEnv parseNothing) orderAsGiven "net.sniff.leak.http" formLeak
        = .ok ("\n\n" ++ ("  Method: " ++ (plainEnv parseNothing).Yellow formRequest.Method
                  ++ "\n")
                ++ ("  URL: " ++ (plainEnv parseNothing).Yellow (URL.mk "/login").text ++ "\n")
                ++ "  Headers:\n"
                ++ concatLines ((orderAsGiven.header formRequest.Header).map
                    (fun kv => "    " ++ (plainEnv parseNothing).Green kv.1 ++ " => "
                      ++ ", ".intercalate kv.2 ++ "\n"))
                ++ ("  \n  Form:\n\n"
                    ++ concatLines ((orderAsGiven.form formRequest.Form).map
                        (fun kv => "    " ++ (plainEnv parseNothing).Green kv.1 ++ " => "
                          ++ (plainEnv parseNothing).Bold (", ".intercalate kv.2) ++ "\n"))),
               SnifferEvent.mk "leak" (.request (some formRequest))) :=
  snifferMisc_form_or_body (plainEnv parseNothing) orderAsGiven formLeak formRequest formRequest
    none ⟨fun m => List.Perm.refl m, fun m => List.Perm.refl m⟩
    rfl (by decide) rfl

/-- C10, refuted as stated: the body of the leaked request yields the bytes
`user=bob&pass` and then a read error; form parsing has failed; `View` returns,
and the body section it prints holds those bytes, not an empty body string. -/
theorem View_prints_bytes_read_before_error :
    (ReadAll ⟨"user=bob&pass", true⟩).2.1 = true
    ∧ (∃ e1, View (plainEnv parseFails) orderAsGiven brokenBodyEvent false
        = .ok ([.print ("[12:00:05] [net.sniff.leak.http] leak \n\n  Method: POST\n"
                  ++ "  URL: /login\n  Headers:\n    Content-Type => text/plain; charset\n"
                  ++ "  \n  Body:\n\n    user=bob&pass\n\n")], e1))
    ∧ ("[12:00:05] [net.sniff.leak.http] leak \n\n  Method: POST\n"
          ++ "  URL: /login\n  Headers:\n    Content-Type => text/plain; charset\n"
          ++ "  \n  Body:\n\n    user=bob&pass\n\n" : String)
        ≠ "[12:00:05] [net.sniff.leak.http] leak \n\n  Method: POST\n"
          ++ "  URL: /login\n  Headers:\n    Content-Type => text/plain; charset\n"
          ++ "  \n  Body:\n\n    \n\n" := by
  refine ⟨rfl, ⟨_, rfl⟩, by decide⟩

/-- C10, amended: for every `net.sniff.leak.http` event carrying a request with
a method other than `GET` whose form parsing fails and whose body is present, if
reading the body ends in an error then `View` still returns, without a panic and
without an error, and the body section it prints holds the bytes that were read
before the error. -/
theorem View_body_read_error (env : Env) (ord : MapOrder) (e : Event) (refresh : Bool)
    (se : SnifferEvent) (req req1 : Request) (u : URL) (err : String) (body : Body)
    (ht : e.Tag = "net.sniff.leak.http") (hd : e.Data = .sniffer se)
    (hi : se.Data = .request (some req)) (hg : req.Method ≠ "GET")
    (hu : req.URL = some u) (hp : env.ParseForm req = (some err, req1))
    (hb : req1.Body = some body) (_hf : (ReadAll body).2.1 = true) :
    ∃ e1,
      View env ord e refresh
        = .ok (.print ("[" ++ env.Format e.Time "15:04:05" ++ "] [" ++ env.Green e.Tag ++ "] "
                  ++ se.Message ++ " "
                  ++ (dumpHead env ord req u ++ bodySection env (ReadAll body).1) ++ "\n")
                :: (if refresh then [.refresh] else []), e1) := by
  have hm := snifferMisc_dump env ord se req _ _ hi hg
    (httpDump_body env ord req req1 u err body hu hp hb)
  rw [← ht] at hm
  refine ⟨{ e with Data := .sniffer ⟨se.Message,
    .request (some { req1 with Body := some { body with pending := "" } })⟩ }, ?_⟩
  rw [View_eq_finish, viewRender_leak env ord e ht,
    viewSnifferEvent_of_misc env ord e se _ _ hd hm]
  simp only [finish, leadColumn, ReadAll, String.append_assoc]

/-- C10, amended, on the leaked request with the broken body. -/
theorem View_body_read_error_witness :
    (ReadAll ⟨"user=bob&pass", true⟩).2.1 = true ∧
    ∃ e1,
      View (plainEnv parseFails) orderAsGiven brokenBodyEvent true
        = .ok (.print ("[" ++ (plainEnv parseFails).Format brokenBodyEvent.Time "15:04:05"
                  ++ "] [" ++ (plainEnv parseFails).Green brokenBodyEvent.Tag ++ "] "
                  ++ brokenLeak.Message ++ " "
                  ++ (dumpHead (plainEnv parseFails) orderAsGiven brokenRequest ⟨"/login"⟩
                        ++ bodySection (plainEnv parseFails)
                            (ReadAll ⟨"user=bob&pass", true⟩).1) ++ "\n")
                :: (if true then [.refresh] else []), e1) :=
  ⟨rfl, View_body_read_error (plainEnv parseFails) orderAsGiven brokenBodyEvent true brokenLeak
    brokenRequest brokenRequest ⟨"/login"⟩ "mime: invalid media parameter"
    ⟨"user=bob&pass", true⟩ rfl rfl rfl (by decide) rfl rfl rfl rfl⟩

/-! ## Endpoint events -/

/-- C11: for every `endpoint.lost` event carrying an endpoint, the line printed
is the time, the green tag, `Endpoint`, the red IP address, the name suffix and
` lost.`; the name suffix is the alias in parentheses whenever the alias is not
empty, even if the host name is not empty either, the host name in parentheses
when the alias is empty and the host name is not, and empty when both are. -/
theorem View_endpoint_lost (env : Env) (ord : MapOrder) (e : Event) (refresh : Bool)
    (t : Endpoint) (ht : e.Tag = "endpoint.lost") (hd : e.Data = .endpoint (some t)) :
    ∃ name,
      View env ord e refresh
        = .ok (.print ("[" ++ env.Format e.Time "15:04:05" ++ "] [" ++ env.Green e.Tag
                  ++ "] Endpoint " ++ env.Red t.IpAddress ++ name ++ " lost.\n")
                :: (if refresh then [.refresh] else []), e)
      ∧ (t.Alias ≠ "" → name = " (" ++ t.Alias ++ ")")
      ∧ (t.Alias = "" → t.Hostname ≠ "" → name = " (" ++ t.Hostname ++ ")")
      ∧ (t.Alias = "" → t.Hostname = "" → name = "") := by
  have hp : HasPrefix e.Tag "endpoint." = true := by rw [ht]; decide
  refine ⟨if t.Alias ≠ "" then " (" ++ t.Alias ++ ")"
      else if t.Hostname ≠ "" then " (" ++ t.Hostname ++ ")" else "", ?_, ?_, ?_, ?_⟩
  · rw [View_eq_finish, viewRender_endpoint env ord e hp, viewEndpointEvent_lost env e t ht hd]
    rfl
  · intro ha
    rw [if_pos ha]
  · intro ha hh
    rw [if_neg (not_not.mpr ha), if_pos hh]
  · intro ha hh
    rw [if_neg (not_not.mpr ha), if_neg (not_not.mpr hh)]

/-- C11 on a lost endpoint that has both an alias and a host name. -/
theorem View_endpoint_lost_witness :
    ∃ name,
      View (plainEnv parseNothing) orderAsGiven lostEvent true
        = .ok (.print ("[" ++ (plainEnv parseNothing).Format lostEvent.Time "15:04:05" ++ "] ["
                  ++ (plainEnv parseNothing).Green lostEvent.Tag
                  ++ "] Endpoint " ++ (plainEnv parseNothing).Red "192.168.1.7" ++ name
                  ++ " lost.\n")
                :: (if true then [.refresh] else []), lostEvent)
      ∧ (("printer" : String) ≠ "" → name = " (" ++ "printer" ++ ")")
      ∧ (("printer" : String) = "" → ("hp.local" : String) ≠ ""
            → name = " (" ++ "hp.local" ++ ")")
      ∧ (("printer" : String) = "" → ("hp.local" : String) = "" → name = "") :=
  View_endpoint_lost (plainEnv parseNothing) orderAsGiven lostEvent true
    ⟨"192.168.1.7", "de:ad:be:ef:00:01", "", "printer", "hp.local", "ep"⟩ rfl rfl

/-- C12: for every `endpoint.new` event carrying an endpoint, the line printed
is the time, the green tag, `Endpoint`, the bold IP address, ` detected as `, the
green hardware address, the vendor suffix and `.`; the vendor suffix is empty
when the vendor is empty and the vendor in parentheses after a blank otherwise,
` (Acme)` for the vendor `Acme`. -/
theorem View_endpoint_new (env : Env) (ord : MapOrder) (e : Event) (refresh : Bool)
    (t : Endpoint) (ht : e.Tag = "endpoint.new") (hd : e.Data = .endpoint (some t)) :
    ∃ vend,
      View env ord e refresh
        = .ok (.print ("[" ++ env.Format e.Time "15:04:05" ++ "] [" ++ env.Green e.Tag
                  ++ "] Endpoint " ++ env.Bold t.IpAddress ++ " detected as "
                  ++ env.Green t.HwAddress ++ vend ++ ".\n")
                :: (if refresh then [.refresh] else []), e)
      ∧ (t.Vendor = "" → vend = "")
      ∧ (t.Vendor ≠ "" → vend = " (" ++ t.Vendor ++ ")")
      ∧ (t.Vendor = "Acme" → vend = " (Acme)") := by
  have hp : HasPrefix e.Tag "endpoint." = true := by rw [ht]; decide
  refine ⟨endpointVend t, ?_, ?_, ?_, ?_⟩
  · rw [View_eq_finish, viewRender_endpoint env ord e hp, viewEndpointEvent_new env e t ht hd]
    rfl
  · intro hv
    simp [endpointVend, hv]
  · intro hv
    simp [endpointVend, hv]
  · intro hv
    rw [endpointVend, hv]
    decide

/-- C12 on a new endpoint of vendor `Acme`. -/
theorem View_endpoint_new_witness :
    ∃ vend,
      View (plainEnv parseNothing) orderAsGiven newEndpointEvent false
        = .ok (.print ("[" ++ (plainEnv parseNothing).Format newEndpointEvent.Time "15:04:05"
                  ++ "] [" ++ (plainEnv parseNothing).Green newEndpointEvent.Tag
                  ++ "] Endpoint " ++ (plainEnv parseNothing).Bold acmeEndpoint.IpAddress
                  ++ " detected as " ++ (plainEnv parseNothing).Green acmeEndpoint.HwAddress
                  ++ vend ++ ".\n")
                :: (if false then [.refresh] else []), newEndpointEvent)
      ∧ (acmeEndpoint.Vendor = "" → vend = "")
      ∧ (acmeEndpoint.Vendor ≠ "" → vend = " (" ++ acmeEndpoint.Vendor ++ ")")
      ∧ (acmeEndpoint.Vendor = "Acme" → vend = " (Acme)") :=
  View_endpoint_new (plainEnv parseNothing) orderAsGiven newEndpointEvent false
    acmeEndpoint rfl rfl

/-! ## Access points, vendor suffix and open ports -/

/-- C13: for every `wifi.ap.new` event carrying an access point, the line
printed is the time, the green tag, `WiFi access point`, the bold ESSID as the
accessor returns it, ` detected as `, the green BSSID, the vendor suffix and `.`.
For the ESSID `TestNet`, the BSSID `AA:BB:CC:DD:EE:FF` and an empty vendor the
green BSSID is followed at once by `.`, and the line contains
`WiFi access point`, and `TestNet` and the BSSID under any styling that wraps its
text. -/
theorem View_ap_new (env : Env) (ord : MapOrder) (e : Event) (refresh : Bool)
    (ap : AccessPoint) (ht : e.Tag = "wifi.ap.new") (hd : e.Data = .accessPoint (some ap)) :
    ∃ text,
      View env ord e refresh = .ok (.print text :: (if refresh then [.refresh] else []), e)
      ∧ text = "[" ++ env.Format e.Time "15:04:05" ++ "] [" ++ env.Green e.Tag
                ++ "] WiFi access point " ++ env.Bold ap.ESSID ++ " detected as "
                ++ env.Green ap.BSSID ++ vendorSuffix ap.Vendor ++ ".\n"
      ∧ (ap.ESSID = "TestNet" → ap.BSSID = "AA:BB:CC:DD:EE:FF" → ap.Vendor = "" →
          text = "[" ++ env.Format e.Time "15:04:05" ++ "] [" ++ env.Green e.Tag
                  ++ "] WiFi access point " ++ env.Bold "TestNet" ++ " detected as "
                  ++ env.Green "AA:BB:CC:DD:EE:FF" ++ ".\n"
          ∧ Contains text "WiFi access point"
          ∧ (Wraps env.Bold → Contains text "TestNet")
          ∧ (Wraps env.Green → Contains text "AA:BB:CC:DD:EE:FF")) := by
  have hp : HasPrefix e.Tag "wifi.ap." = true := by rw [ht]; decide
  have hs : ("] WiFi access point " : String) = "] " ++ "WiFi access point" ++ " " := by decide
  refine ⟨_, ?_, rfl, ?_⟩
  · rw [View_eq_finish, viewRender_accessPoint env ord e hp, viewApEvent_new env e ap ht hd,
      apVend_eq]
    rfl
  · intro he hb hv
    rw [he, hb, hv]
    have hv0 : vendorSuffix "" = "" := by decide
    rw [hv0, String.append_empty]
    refine ⟨rfl, ?_, ?_, ?_⟩
    · refine ⟨"[" ++ env.Format e.Time "15:04:05" ++ "] [" ++ env.Green e.Tag ++ "] ",
        " " ++ env.Bold "TestNet" ++ " detected as " ++ env.Green "AA:BB:CC:DD:EE:FF" ++ ".\n",
        ?_⟩
      rw [hs]
      simp only [String.append_assoc]
    · rintro ⟨o, c, hw⟩
      refine ⟨"[" ++ env.Format e.Time "15:04:05" ++ "] [" ++ env.Green e.Tag
          ++ "] WiFi access point " ++ o,
        c ++ " detected as " ++ env.Green "AA:BB:CC:DD:EE:FF" ++ ".\n", ?_⟩
      rw [hw "TestNet"]
      simp only [String.append_assoc]
    · rintro ⟨o, c, hw⟩
      refine ⟨"[" ++ env.Format e.Time "15:04:05" ++ "] [" ++ env.Green e.Tag
          ++ "] WiFi access point " ++ env.Bold "TestNet" ++ " detected as " ++ o,
        c ++ ".\n", ?_⟩
      rw [hw "AA:BB:CC:DD:EE:FF"]
      simp only [String.append_assoc]

/-- C13 on the access point `TestNet`. -/
theorem View_ap_new_witness :
    ∃ text,
      View (plainEnv parseNothing) orderAsGiven apEvent false
        = .ok (.print text :: (if false then [.refresh] else []), apEvent)
      ∧ text = "[" ++ (plainEnv parseNothing).Format apEvent.Time "15:04:05" ++ "] ["
                ++ (plainEnv parseNothing).Green apEvent.Tag
                ++ "] WiFi access point " ++ (plainEnv parseNothing).Bold testNet.ESSID
                ++ " detected as " ++ (plainEnv parseNothing).Green testNet.BSSID
                ++ vendorSuffix testNet.Vendor ++ ".\n"
      ∧ (testNet.ESSID = "TestNet" → testNet.BSSID = "AA:BB:CC:DD:EE:FF" → testNet.Vendor = "" →
          text = "[" ++ (plainEnv parseNothing).Format apEvent.Time "15:04:05" ++ "] ["
                  ++ (plainEnv parseNothing).Green apEvent.Tag
                  ++ "] WiFi access point " ++ (plainEnv parseNothing).Bold "TestNet"
                  ++ " detected as " ++ (plainEnv parseNothing).Green "AA:BB:CC:DD:EE:FF"
                  ++ ".\n"
          ∧ Contains text "WiFi access point"
          ∧ (Wraps (plainEnv parseNothing).Bold → Contains text "TestNet")
          ∧ (Wraps (plainEnv parseNothing).Green → Contains text "AA:BB:CC:DD:EE:FF")) :=
  View_ap_new (plainEnv parseNothing) orderAsGiven apEvent false testNet rfl rfl

/-- C14: the optional vendor suffix is the same in the access-point renderer and
in the endpoint renderer: for every vendor `v`, the suffix `vend` computed for an
access point of vendor `v` equals the one computed for an endpoint of vendor `v`,
namely `v` in parentheses after a blank if `v` is not empty and the empty string
otherwise; these are the suffixes the two renderers print for `wifi.ap.new` and
`endpoint.new`. -/
theorem vend_same_in_both_renderers (v : String) (ap : AccessPoint) (t : Endpoint)
    (ha : ap.Vendor = v) (hv : t.Vendor = v) :
    apVend ap = endpointVend t
    ∧ apVend ap = (if v ≠ "" then " (" ++ v ++ ")" else "")
    ∧ apVend ap = vendorSuffix v
    ∧ (∀ (env : Env) (e : Event), e.Tag = "wifi.ap.new" → e.Data = .accessPoint (some ap) →
        viewApEvent env e
          = .ok ⟨"[" ++ env.Format e.Time "15:04:05" ++ "] [" ++ env.Green e.Tag
                  ++ "] WiFi access point " ++ env.Bold ap.ESSID ++ " detected as "
                  ++ env.Green ap.BSSID ++ apVend ap ++ ".\n", e⟩)
    ∧ (∀ (env : Env) (e : Event), e.Tag = "endpoint.new" → e.Data = .endpoint (some t) →
        viewEndpointEvent env e
          = .ok ⟨"[" ++ env.Format e.Time "15:04:05" ++ "] [" ++ env.Green e.Tag
                  ++ "] Endpoint " ++ env.Bold t.IpAddress ++ " detected as "
                  ++ env.Green t.HwAddress ++ endpointVend t ++ ".\n", e⟩) := by
  refine ⟨?_, ?_, ?_, ?_, ?_⟩
  · rw [apVend, endpointVend, ha, hv]
  · rw [apVend, ha]
  · rw [apVend_eq, ha]
  · intro env e ht hd
    exact viewApEvent_new env e ap ht hd
  · intro env e ht hd
    exact viewEndpointEvent_new env e t ht hd

/-- C14 on an access point and an endpoint of vendor `Acme`. -/
theorem vend_same_in_both_renderers_witness :
    apVend acmeAccessPoint = endpointVend acmeEndpoint
    ∧ apVend acmeAccessPoint = (if ("Acme" : String) ≠ "" then " (" ++ "Acme" ++ ")" else "")
    ∧ apVend acmeAccessPoint = vendorSuffix "Acme"
    ∧ (∀ (env : Env) (e : Event), e.Tag = "wifi.ap.new" →
        e.Data = .accessPoint (some acmeAccessPoint) →
        viewApEvent env e
          = .ok ⟨"[" ++ env.Format e.Time "15:04:05" ++ "] [" ++ env.Green e.Tag
                  ++ "] WiFi access point " ++ env.Bold acmeAccessPoint.ESSID ++ " detected as "
                  ++ env.Green acmeAccessPoint.BSSID ++ apVend acmeAccessPoint ++ ".\n", e⟩)
    ∧ (∀ (env : Env) (e : Event), e.Tag = "endpoint.new" →
        e.Data = .endpoint (some acmeEndpoint) →
        viewEndpointEvent env e
          = .ok ⟨"[" ++ env.Format e.Time "15:04:05" ++ "] [" ++ env.Green e.Tag
                  ++ "] Endpoint " ++ env.Bold acmeEndpoint.IpAddress ++ " detected as "
                  ++ env.Green acmeEndpoint.HwAddress ++ endpointVend acmeEndpoint
                  ++ ".\n", e⟩) :=
  vend_same_in_both_renderers "Acme" acmeAccessPoint acmeEndpoint rfl rfl

/-- C15: for every event whose tag has the prefix `syn.scan` and that carries a
`SynScanEvent` with address `a` and port `p`, the output is the single line made
of the time, the green tag, `Found open port`, `p` in decimal, `for` and the bold
`a`; with pass-through styling, the address `10.0.0.5` and the port 443 give a
line that contains `Found open port 443 for 10.0.0.5`. -/
theorem View_syn_scan (env : Env) (ord : MapOrder) (e : Event) (refresh : Bool)
    (se : SynScanEvent) (hp : HasPrefix e.Tag "syn.scan" = true) (hd : e.Data = .synScan se) :
    ∃ text,
      View env ord e refresh = .ok (.print text :: (if refresh then [.refresh] else []), e)
      ∧ text = "[" ++ env.Format e.Time "15:04:05" ++ "] [" ++ env.Green e.Tag
                ++ "] Found open port " ++ toString se.Port ++ " for "
                ++ env.Bold se.Address ++ "\n"
      ∧ ((∀ s, env.Bold s = s) → se.Address = "10.0.0.5" → se.Port = 443 →
          Contains text "Found open port 443 for 10.0.0.5") := by
  have hs : ("] Found open port " : String) = "] " ++ "Found open port " := by decide
  have hn : ("Found open port " ++ toString (443 : Int) ++ " for " ++ "10.0.0.5" : String)
      = "Found open port 443 for 10.0.0.5" := by decide
  refine ⟨_, ?_, rfl, ?_⟩
  · rw [View_eq_finish, viewRender_portScan env ord e hp]
    simp only [viewSynScanEvent, hd, finish, eventTimeFormat]
  · intro hb ha hport
    refine ⟨"[" ++ env.Format e.Time "15:04:05" ++ "] [" ++ env.Green e.Tag ++ "] ", "\n", ?_⟩
    rw [hb, ha, hport, ← hn, hs]
    simp only [String.append_assoc]

/-- C15 on the open port 443 of `10.0.0.5`. -/
theorem View_syn_scan_witness :
    ∃ text,
      View (plainEnv parseNothing) orderAsGiven scanEvent true
        = .ok (.print text :: (if true then [.refresh] else []), scanEvent)
      ∧ text = "[" ++ (plainEnv parseNothing).Format scanEvent.Time "15:04:05" ++ "] ["
                ++ (plainEnv parseNothing).Green scanEvent.Tag
                ++ "] Found open port " ++ toString (443 : Int) ++ " for "
                ++ (plainEnv parseNothing).Bold "10.0.0.5" ++ "\n"
      ∧ ((∀ s, (plainEnv parseNothing).Bold s = s) → ("10.0.0.5" : String) = "10.0.0.5" →
          (443 : Int) = 443 → Contains text "Found open port 443 for 10.0.0.5") :=
  View_syn_scan (plainEnv parseNothing) orderAsGiven scanEvent true ⟨"10.0.0.5", 443⟩
    (by decide) rfl

/-! ## The refresh and the order of the rules -/

/-- C16: for every event with a payload of the shape its tag family implies,
`View` with `refresh` set prints the text and then calls `Refresh` exactly once;
with `refresh` unset it prints the same text and does not call `Refresh`; the
event is left in the same state either way. -/
theorem View_refresh_once_after_print (env : Env) (ord : MapOrder) (e : Event)
    (h : WellShaped e = true) :
    ∃ text e1,
      View env ord e true = .ok ([.print text, .refresh], e1)
      ∧ View env ord e false = .ok ([.print text], e1) := by
  obtain ⟨rest, e1, hr⟩ := viewRender_wellShaped env ord e h
  refine ⟨leadColumn env e ++ rest ++ "\n", e1, ?_, ?_⟩
  · rw [View_eq_finish, hr]
    rfl
  · rw [View_eq_finish, hr]
    rfl

/-- C16 on an open port found by the scanner. -/
theorem View_refresh_once_after_print_witness :
    WellShaped scanEvent = true ∧
    ∃ text e1,
      View (plainEnv parseNothing) orderAsGiven scanEvent true = .ok ([.print text, .refresh], e1)
      ∧ View (plainEnv parseNothing) orderAsGiven scanEvent false = .ok ([.print text], e1) :=
  ⟨by decide, View_refresh_once_after_print _ _ _ (by decide)⟩

/-- C17: the six routing predicates are pairwise exclusive: for every tag no two
rules match, so at most one rule matches; hence for every reordering of the rule
set the first matching rule selects the same renderer, and `View` runs that
renderer. -/
theorem rules_order_irrelevant (tag : String) (rs : List ((String → Bool) × Renderer))
    (hp : rs.Perm rules) :
    List.Pairwise (fun a b => ¬ (a.1 tag = true ∧ b.1 tag = true)) rules
    ∧ (rules.filter (fun rule => rule.1 tag)).length ≤ 1
    ∧ selectFrom rs tag = selectRenderer tag
    ∧ ∀ (env : Env) (ord : MapOrder) (e : Event) (refresh : Bool), e.Tag = tag →
        View env ord e refresh
          = finish (runRenderer env ord (selectFrom rs e.Tag) e) refresh := by
  have hsel : selectFrom rs tag = selectRenderer tag := by
    rw [selectRenderer_eq_selectFrom]
    by_cases hex : ∃ rule ∈ rules, rule.1 tag = true
    · obtain ⟨rule, hr, hm⟩ := hex
      rw [selectFrom_of_rule rs tag rule hp hr hm,
        selectFrom_of_rule rules tag rule (List.Perm.refl _) hr hm]
    · have hn : ∀ rule ∈ rules, ¬ rule.1 tag = true := fun rule hr hm => hex ⟨rule, hr, hm⟩
      rw [selectFrom_of_no_rule rs tag hp hn,
        selectFrom_of_no_rule rules tag (List.Perm.refl _) hn]
  refine ⟨?_, ?_, hsel, ?_⟩
  · refine List.Pairwise.imp_of_mem ?_ rules_distinct
    intro a b ha hb hne hboth
    exact hne (congrArg Prod.snd (rules_agree tag a b ha hb hboth.1 hboth.2))
  · apply length_le_one_of_all_eq
    · exact (rules_distinct.imp (fun hne heq => hne (congrArg Prod.snd heq))).sublist
        (List.filter_sublist _)
    · intro a ha b hb
      have ha2 := List.mem_filter.mp ha
      have hb2 := List.mem_filter.mp hb
      exact rules_agree tag a b ha2.1 hb2.1 ha2.2 hb2.2
  · intro env ord e refresh ht
    rw [ht, hsel, ← ht]
    exact View_runs_selected env ord e refresh

/-- C17 on the tag `syn.scan` and the rules in the opposite order. -/
theorem rules_order_irrelevant_witness :
    List.Pairwise (fun a b => ¬ (a.1 "syn.scan" = true ∧ b.1 "syn.scan" = true)) rules
    ∧ (rules.filter (fun rule => rule.1 "syn.scan")).length ≤ 1
    ∧ selectFrom rules.reverse "syn.scan" = selectRenderer "syn.scan"
    ∧ ∀ (env : Env) (ord : MapOrder) (e : Event) (refresh : Bool), e.Tag = "syn.scan" →
        View env ord e refresh
          = finish (runRenderer env ord (selectFrom rules.reverse e.Tag) e) refresh :=
  rules_order_irrelevant "syn.scan" rules.reverse (List.reverse_perm rules)

end EventsView
